import Mathlib

set_option maxRecDepth 100000

/-!
Verification development for the chrome-use repository: a shallow embedding of
the conversation manager, DOM snapshot builder, decision parser, action
executor and in-page action queue, with theorems about their stated
properties.  Machine integers are modelled as `Int`/`Nat`; host-environment
observations (computed styles, bounding boxes, hit testing) are carried as
explicit fields of the embedded data; fallible code returns `Except`.
-/

namespace ChromeUse

/-! ## Conversation manager (src/server/agent/message-manager/views.js and the
message-manager service) -/

/-- Metadata attached to a stored message; `tokens` is the deterministic size
estimate computed on addition (the creation timestamp carried by the source is
elided as it never influences behaviour). -/
structure MessageMetadata where
  tokens : Int
deriving Repr, DecidableEq

/-- A chat message: a role string (`"system"` / `"user"`) and text content. -/
structure ChatMessage where
  role : String
  content : String
deriving Repr, DecidableEq

/-- One entry of the history array: the message together with its metadata. -/
structure HistoryEntry where
  message : ChatMessage
  metadata : MessageMetadata
deriving Repr, DecidableEq

/-- `MessageHistory` from views.js: the message array plus the running token
counter `currentTokens`. -/
structure MessageHistory where
  messages : List HistoryEntry
  currentTokens : Int
deriving Repr, DecidableEq

/-- The freshly constructed history: empty array, zero token counter. -/
def MessageHistory.empty : MessageHistory :=
  { messages := [], currentTokens := 0 }

/-- `MessageHistory.addMessage`: push the entry and add its token estimate to
the running counter. -/
def MessageHistory.addMessage (h : MessageHistory) (message : ChatMessage)
    (metadata : MessageMetadata) : MessageHistory :=
  { messages := h.messages ++ [{ message := message, metadata := metadata }],
    currentTokens := h.currentTokens + metadata.tokens }

/-- `MessageHistory.getMessages`: the stored messages without metadata. -/
def MessageHistory.getMessages (h : MessageHistory) : List ChatMessage :=
  h.messages.map (fun e => e.message)

/-- `MessageHistory.getTotalTokens`: returns the running counter. -/
def MessageHistory.getTotalTokens (h : MessageHistory) : Int :=
  h.currentTokens

/-- The index scan of `trimIfNeeded`: the first position whose message role
is not `"system"`, if any. -/
def findFirstNonSystem : List HistoryEntry → Option Nat
  | [] => none
  | e :: t =>
    if e.message.role != "system" then some 0
    else (findFirstNonSystem t).map (fun i => i + 1)

/-- `MessageHistory.trimIfNeeded`: if the counter exceeds `maxTokens`, remove
the first entry whose role is not `"system"` and subtract its tokens,
returning whether an entry was removed. -/
def MessageHistory.trimIfNeeded (h : MessageHistory) (maxTokens : Int) :
    Bool × MessageHistory :=
  if h.currentTokens ≤ maxTokens then
    (false, h)
  else
    match findFirstNonSystem h.messages with
    | none => (false, h)
    | some i =>
      match h.messages[i]? with
      | none => (false, h)
      | some removed =>
        (true, { messages := h.messages.eraseIdx i,
                 currentTokens := h.currentTokens - removed.metadata.tokens })

/-- `estimateTokens` from the message-manager service: roughly four characters
per token, rounded up. -/
def estimateTokens (text : String) : Int :=
  Int.ofNat ((text.length + 3) / 4)

/-- The `while` loop in `MessageManager.addMessage`: trim while the total
exceeds the budget and the previous trim removed something.  Each successful
trim removes one entry, so a fuel of one more than the message count is enough
to run the loop to quiescence. -/
def trimLoop : Nat → MessageHistory → Int → MessageHistory
  | 0, h, _ => h
  | fuel + 1, h, maxTokens =>
    if h.getTotalTokens > maxTokens then
      match h.trimIfNeeded maxTokens with
      | (true, h2) => trimLoop fuel h2 maxTokens
      | (false, _) => h
    else h

/-- The action record pushed into `actionHistory` (the fields the summary
renderer reads). -/
structure HistAction where
  type : String
  xpath : Option String := none
  text : Option String := none
  goal : Option String := none
  direction : Option String := none
deriving Repr, DecidableEq

/-- One `actionHistory` entry: the action and whether its result succeeded. -/
structure HistEntry where
  action : HistAction
  success : Bool
deriving Repr, DecidableEq

/-- The action-result message consumed by `addActionResultMessage`:
success flag, optional `data.message`, optional `error` text, and the action
the service attached for history tracking. -/
structure ActionResultMsg where
  success : Bool
  dataMessage : Option String := none
  error : Option String := none
  action : Option HistAction := none
deriving Repr, DecidableEq

/-- The DOM-state payload consumed by `addStateMessage`. -/
structure DomStateMsg where
  url : String
  title : String
  interactiveElements : String
deriving Repr, DecidableEq

/-- `MessageManager` from the message-manager service: the task text, the
history, the configured budget and the tracked action history. -/
structure MessageManager where
  task : String
  history : MessageHistory
  maxTokens : Int
  actionHistory : List HistEntry
deriving Repr, DecidableEq

/-- The system-instruction content installed by `addSystemMessage`
(transcribed verbatim from the source template literal). -/
def systemContent : String :=
  "You are an AI agent that interacts with web pages. You will be given information about the current state of a webpage and must decide what action to take next. The goal is to complete the user\x27s task.\n\nYour response should be a JSON object with this structure:\n\x7b\n  \"current_state\": \x7b\n    \"evaluation\": \"Your analysis of the current page state\",\n    \"next_goal\": \"What you want to accomplish next\"\n  \x7d,\n  \"action\": \x7b\n    \"type\": \"action_name\",\n    // Additional parameters based on action type\n  \x7d\n\x7d\n\nAvailable actions:\n- click_element: Click on an element by XPath. Parameters: \x7b xpath: string \x7d\n- input_text: Type text into an input field. Parameters: \x7b xpath: string, text: string \x7d\n- extract_content: Extract information from the page. Parameters: \x7b goal: string \x7d\n- scroll: Scroll the page. Parameters: \x7b direction: \"up\"|\"down\", amount: number (optional) \x7d\n- wait: Wait for specified seconds. Parameters: \x7b seconds: number (optional, default 1) \x7d\n- done: Mark task as complete. Parameters: \x7b text: string, success: boolean \x7d\n\nCarefully analyze the webpage elements provided. Elements are identified by [xpath=\"...\"] attributes. Include the element\x27s current \x27value\x27 in your analysis. Choose actions that make progress toward completing the task efficiently. Avoid repeating actions that don\x27t lead to progress.\n\n**CRITICAL: Before using \x27input_text\x27, check if the target element already has the desired value or similar content. Do NOT use \x27input_text\x27 if the field is already correctly filled. Target elements using the full \x27xpath\x27 value provided in the square brackets.**"

/-- A JavaScript template placeholder renders `undefined` as the string
`"undefined"`; used by the action-summary renderer for absent fields. -/
def jsShow (o : Option String) : String :=
  match o with
  | some s => s
  | none => "undefined"

/-- `generateActionSummary`: renders the tracked actions, one numbered line
per step, or the empty string when no action has been tracked. -/
def generateActionSummary (actionHistory : List HistEntry) : String :=
  if actionHistory.length = 0 then ""
  else
    "Previous actions:\n" ++ String.join
      ((List.range actionHistory.length).zip actionHistory |>.map (fun p =>
        let entry := p.2
        let base := "Step " ++ toString (p.1 + 1) ++ ": " ++ entry.action.type
        let detail :=
          if entry.action.type == "click_element" && entry.action.xpath.isSome then
            " on element [" ++ jsShow entry.action.xpath ++ "]"
          else if entry.action.type == "input_text" && entry.action.xpath.isSome then
            " on element [" ++ jsShow entry.action.xpath ++ "] with text \"" ++
              jsShow entry.action.text ++ "\""
          else if entry.action.type == "extract_content" then
            " with goal \"" ++ jsShow entry.action.goal ++ "\""
          else if entry.action.type == "scroll" then
            " " ++ jsShow entry.action.direction
          else ""
        let outcome := if entry.success then "succeeded" else "failed"
        base ++ detail ++ ", " ++ outcome ++ "\n"))

/-- `formatStateMessage`: the textual rendering of a DOM state, prefixed by
the task. -/
def MessageManager.formatStateMessage (m : MessageManager) (state : DomStateMsg) : String :=
  "Task: " ++ m.task ++ "\n\n" ++
  "Current URL: " ++ state.url ++ "\nTitle: " ++ state.title ++ "\n\n" ++
  "Interactive elements:\n" ++ state.interactiveElements

/-- `MessageManager.addMessage`: cost the message, append it, then trim while
over budget (the source loops `trimIfNeeded` until it reports no removal). -/
def MessageManager.addMessage (m : MessageManager) (message : ChatMessage) :
    MessageManager :=
  let tokenEstimate := estimateTokens message.content
  let h := m.history.addMessage message { tokens := tokenEstimate }
  { m with history := trimLoop (h.messages.length + 1) h m.maxTokens }

/-- `addSystemMessage`: installs the fixed system instruction with role
`"system"`. -/
def MessageManager.addSystemMessage (m : MessageManager) : MessageManager :=
  m.addMessage { role := "system", content := systemContent }

/-- `addTaskMessage`: installs the task statement with role `"user"`. -/
def MessageManager.addTaskMessage (m : MessageManager) : MessageManager :=
  m.addMessage { role := "user", content := "Your task is: \"" ++ m.task ++ "\"" }

/-- The `MessageManager` constructor: record the task, default the budget to
8000 when the option is absent or `0` (a falsy JavaScript default), then add
the system message and the task message. -/
def MessageManager.new (task : String) (maxTokensOpt : Option Int) : MessageManager :=
  let maxTokens :=
    match maxTokensOpt with
    | none => 8000
    | some k => if k = 0 then 8000 else k
  let m : MessageManager :=
    { task := task, history := MessageHistory.empty, maxTokens := maxTokens,
      actionHistory := [] }
  m.addSystemMessage.addTaskMessage

/-- `addStateMessage`: first add a `"system"` summary of prior actions when
one exists, then add the formatted DOM state with role `"user"`. -/
def MessageManager.addStateMessage (m : MessageManager) (state : DomStateMsg) :
    MessageManager :=
  let summary := generateActionSummary m.actionHistory
  let m1 := if summary != "" then m.addMessage { role := "system", content := summary } else m
  m1.addMessage { role := "user", content := m1.formatStateMessage state }

/-- `addActionResultMessage`: add a `"system"` outcome line (empty message or
error text fall back to fixed phrases, a falsy JavaScript default), then track
the action when one is attached. -/
def MessageManager.addActionResultMessage (m : MessageManager)
    (result : ActionResultMsg) : MessageManager :=
  let content :=
    if result.success then
      "Action completed: " ++
        (match result.dataMessage with
         | some s => if s = "" then "Success" else s
         | none => "Success")
    else
      "Action failed: " ++
        (match result.error with
         | some s => if s = "" then "Unknown error" else s
         | none => "Unknown error")
  let m1 := m.addMessage { role := "system", content := content }
  match result.action with
  | some a => { m1 with actionHistory := m1.actionHistory ++ [{ action := a, success := result.success }] }
  | none => m1

/-- `addNavigationMessage`: a `"system"` navigation notice. -/
def MessageManager.addNavigationMessage (m : MessageManager) (url : String) :
    MessageManager :=
  m.addMessage { role := "system", content := "Page navigation occurred. New URL: " ++ url }

/-- The add operations a caller can issue against a constructed manager. -/
inductive MMOp where
  | state (s : DomStateMsg)
  | result (r : ActionResultMsg)
  | nav (url : String)
deriving Repr, DecidableEq

/-- Apply one add operation. -/
def MessageManager.applyOp (m : MessageManager) : MMOp → MessageManager
  | .state s => m.addStateMessage s
  | .result r => m.addActionResultMessage r
  | .nav url => m.addNavigationMessage url

/-- Apply a sequence of add operations in order. -/
def MessageManager.applyOps (m : MessageManager) (ops : List MMOp) : MessageManager :=
  ops.foldl MessageManager.applyOp m

/-- The operations exercised directly against a `MessageHistory`. -/
inductive HistOp where
  | add (msg : ChatMessage) (meta : MessageMetadata)
  | trim (maxTokens : Int)
deriving Repr, DecidableEq

/-- Apply one history operation (a trim keeps only the resulting history). -/
def MessageHistory.applyOp (h : MessageHistory) : HistOp → MessageHistory
  | .add msg meta => h.addMessage msg meta
  | .trim maxTokens => (h.trimIfNeeded maxTokens).2

/-- Apply a sequence of history operations in order. -/
def MessageHistory.applyOps (h : MessageHistory) (ops : List HistOp) : MessageHistory :=
  ops.foldl MessageHistory.applyOp h

/-! ## Document model builder (src/extension/domBuilder.js)

The live document is embedded as a tree whose element nodes carry, besides
their tag and attribute map, the host observations the builder consults:
offset extents and computed style (for the visibility test), the bounding
rectangle in client coordinates (for the viewport test and the hit-test
centre — scrolling translates it), the live `onclick` / `draggable`
properties, and whether the node is the top document `body` (the builder
compares against `document.body`).  The `_isTopElement` hit test is split
into the part the host specifies — `elementFromPoint` returns null for a
point outside the visual viewport, so an off-screen box centre always fails —
and the stacking outcome at an on-screen centre (which of the overlapping
elements is hit, including the shadow-root branch), which is global page
geometry and is carried as the per-element observation `topOracle`.  A node
forest flattens regular children, shadow children and an embedded iframe
body in traversal order; highlight overlay painting is a display-only side
effect and is elided. -/

/-- ASCII whitespace for the character-list trim below. -/
def isTrimWs (c : Char) : Bool :=
  c == ' ' || c == '\t' || c == '\n' || c == '\r' || c == '\x0b' || c == '\x0c'

/-- Case folding as the host `toLowerCase`, computed over the character list
so concrete snapshots evaluate inside the kernel. -/
def jsToLower (s : String) : String :=
  String.mk (s.data.map Char.toLower)

/-- Whitespace trim as the host `trim`, computed over the character list. -/
def jsTrim (s : String) : String :=
  String.mk (((s.data.dropWhile isTrimWs).reverse.dropWhile isTrimWs).reverse)

/-- The computed-style channels the builder reads. -/
structure Style where
  visibility : String
  display : String
  opacity : String
  cursor : String
deriving Repr, DecidableEq

/-- A bounding client rectangle. -/
structure Rect where
  top : Int
  bottom : Int
  left : Int
  right : Int
deriving Repr, DecidableEq

/-- The window extents consulted by the viewport test. -/
structure Viewport where
  innerWidth : Int
  innerHeight : Int
deriving Repr, DecidableEq

/-- The host-level data of one element node. -/
structure ElemData where
  tagName : String
  attrs : List (String × String)
  offsetWidth : Int
  offsetHeight : Int
  style : Style
  rect : Rect
  isBody : Bool
  topOracle : Bool
  onclickProp : Bool
  draggableProp : Bool
deriving Repr, DecidableEq

/-- `getAttribute`: the first attribute with the given name, if any. -/
def ElemData.getAttribute (d : ElemData) (name : String) : Option String :=
  (d.attrs.find? (fun p => p.1 == name)).map (fun p => p.2)

/-- `hasAttribute`. -/
def ElemData.hasAttribute (d : ElemData) (name : String) : Bool :=
  (d.getAttribute name).isSome

/-- The `id` property (empty when the attribute is absent). -/
def ElemData.nodeId (d : ElemData) : String :=
  (d.getAttribute "id").getD ""

mutual
/-- A document node: a text node with its content and the outcome of the
text-visibility test, or an element with its host data and child forest. -/
inductive DomNode where
  | text (content : String) (visibleOracle : Bool)
  | elem (data : ElemData) (children : DomForest)
deriving Repr, DecidableEq

/-- A list of sibling nodes in traversal order. -/
inductive DomForest where
  | nil
  | cons (head : DomNode) (tail : DomForest)
deriving Repr, DecidableEq
end

/-- The id of the builder-owned overlay container, skipped by traversal. -/
def HIGHLIGHT_CONTAINER_ID : String := "agent-highlight-container"

/-- The denylist of non-content tags from `_isElementAccepted`. -/
def leafElementDenyList : List String :=
  ["svg", "script", "style", "link", "meta", "noscript", "template"]

/-- `_isElementAccepted`: a truthy tag name that is not denylisted. -/
def isElementAccepted (d : ElemData) : Bool :=
  d.tagName != "" && !(leafElementDenyList.contains (jsToLower d.tagName))

/-- `_isElementVisible`: non-zero offset extents and none of the hiding style
channels. -/
def isElementVisible (d : ElemData) : Bool :=
  d.offsetWidth > 0 && d.offsetHeight > 0 &&
  d.style.visibility != "hidden" && d.style.display != "none" &&
  d.style.opacity != "0"

/-- The builder configuration consulted per `build()` call. -/
structure BuildConfig where
  viewportExpansion : Int
  win : Viewport
deriving Repr, DecidableEq

/-- `_isInExpandedViewport`: a margin of `-1` disables the check; otherwise
the box must intersect the viewport expanded by the margin. -/
def isInExpandedViewport (cfg : BuildConfig) (d : ElemData) : Bool :=
  if cfg.viewportExpansion = -1 then true
  else
    !(d.rect.bottom < -cfg.viewportExpansion ||
      d.rect.top > cfg.win.innerHeight + cfg.viewportExpansion ||
      d.rect.right < -cfg.viewportExpansion ||
      d.rect.left > cfg.win.innerWidth + cfg.viewportExpansion)

/-- The client x-coordinate of the box centre, `rect.left + rect.width / 2`
(a client rectangle has `width = right - left`). -/
def centerX (d : ElemData) : Int :=
  d.rect.left + (d.rect.right - d.rect.left) / 2

/-- The client y-coordinate of the box centre, `rect.top + rect.height / 2`. -/
def centerY (d : ElemData) : Int :=
  d.rect.top + (d.rect.bottom - d.rect.top) / 2

/-- `_isTopElement`: `elementFromPoint` at the box centre.  The host returns
null for a point outside the visual viewport — the source then returns false
— and otherwise the topmost element at that client coordinate; whether the
ancestor walk from that element reaches this one is the stacking outcome
`topOracle` (the shadow-root branch behaves the same way for its root). -/
def isTopElement (win : Viewport) (d : ElemData) : Bool :=
  if centerX d < 0 ∨ centerY d < 0 ∨ centerX d > win.innerWidth ∨
      centerY d > win.innerHeight then
    false
  else d.topOracle

/-- The fixed tag allowlist of `_isInteractiveElement`. -/
def interactiveElements : List String :=
  ["a", "button", "details", "embed", "input", "label", "menu", "menuitem",
   "object", "select", "textarea", "summary"]

/-- The ARIA role allowlist of `_isInteractiveElement`. -/
def interactiveRoles : List String :=
  ["button", "menu", "menuitem", "link", "checkbox", "radio", "slider", "tab",
   "tabpanel", "textbox", "combobox", "grid", "listbox", "option", "progressbar",
   "scrollbar", "searchbox", "switch", "tree", "treeitem", "spinbutton", "tooltip"]

/-- `_isInteractiveElement`: the interactivity signature — tag allowlist, role
allowlist (a truthy role), a `tabindex` other than `"-1"`, pointer cursor,
a click handler (property, or a truthy `onclick` attribute), framework click
bindings, expanded/pressed/selected/checked state attributes, or
draggability. -/
def isInteractiveElement (d : ElemData) : Bool :=
  let tagName := jsToLower d.tagName
  let role := (d.getAttribute "role").map jsToLower
  let tabIndex := d.getAttribute "tabindex"
  interactiveElements.contains tagName ||
  (match role with
   | some r => r != "" && interactiveRoles.contains r
   | none => false) ||
  (tabIndex.isSome && tabIndex != some "-1") ||
  d.style.cursor == "pointer" ||
  d.onclickProp ||
  (match d.getAttribute "onclick" with
   | some s => s != ""
   | none => false) ||
  d.hasAttribute "ng-click" ||
  d.hasAttribute "@click" ||
  d.hasAttribute "v-on:click" ||
  d.hasAttribute "aria-expanded" ||
  d.hasAttribute "aria-pressed" ||
  d.hasAttribute "aria-selected" ||
  d.hasAttribute "aria-checked" ||
  d.draggableProp ||
  d.getAttribute "draggable" == some "true"

mutual
/-- `_buildDomTree` on one node: returns whether a tree was produced, the
updated highlight counter, and the `(highlight index, element)` entries
recorded into the selector map by this subtree, in assignment order.  The
overlay container and denylisted or invisible elements are dropped with their
whole subtree (the top document `body` is exempt from the visibility test);
children are recursed first, and only then are the viewport, topmost and
interactivity checks run on the node itself, assigning the current counter
value on success. -/
def buildDomTree (cfg : BuildConfig) : DomNode → Nat → Bool × Nat × List (Nat × ElemData)
  | .text content visibleOracle, idx =>
    (jsTrim content != "" && visibleOracle, idx, [])
  | .elem d children, idx =>
    if d.nodeId == HIGHLIGHT_CONTAINER_ID then (false, idx, [])
    else if !isElementAccepted d then (false, idx, [])
    else if !d.isBody && !isElementVisible d then (false, idx, [])
    else
      let rec_ := buildForest cfg children idx
      if isInExpandedViewport cfg d then
        if isTopElement cfg.win d then
          if isInteractiveElement d then
            (true, rec_.1 + 1, rec_.2 ++ [(rec_.1, d)])
          else (true, rec_.1, rec_.2)
        else (true, rec_.1, rec_.2)
      else (true, rec_.1, rec_.2)
termination_by structural n => n

/-- `_buildDomTree` over a child forest, threading the highlight counter. -/
def buildForest (cfg : BuildConfig) : DomForest → Nat → Nat × List (Nat × ElemData)
  | .nil, idx => (idx, [])
  | .cons n f, idx =>
    let r1 := buildDomTree cfg n idx
    let r2 := buildForest cfg f r1.2.1
    (r2.1, r1.2.2 ++ r2.2)
termination_by structural f => f
end

/-- `build()`: reset the highlight counter to 0 and traverse from the root,
returning the selector map as the list of `(index, element)` entries in
assignment order. -/
def build (cfg : BuildConfig) (root : DomNode) : List (Nat × ElemData) :=
  (buildDomTree cfg root 0).2.2

/-- Translate a rectangle, as scrolling the page does to every bounding
client rectangle. -/
def shiftRect (dx dy : Int) (r : Rect) : Rect :=
  { top := r.top + dy, bottom := r.bottom + dy,
    left := r.left + dx, right := r.right + dx }

/-- Translate the bounding rectangle of one element's data. -/
def shiftData (dx dy : Int) (d : ElemData) : ElemData :=
  { d with rect := shiftRect dx dy d.rect }

mutual
/-- Translate every bounding rectangle in a node. -/
def shiftNode (dx dy : Int) : DomNode → DomNode
  | .text content visibleOracle => .text content visibleOracle
  | .elem d children => .elem (shiftData dx dy d) (shiftForest dx dy children)
termination_by structural n => n

/-- Translate every bounding rectangle in a forest. -/
def shiftForest (dx dy : Int) : DomForest → DomForest
  | .nil => .nil
  | .cons n f => .cons (shiftNode dx dy n) (shiftForest dx dy f)
termination_by structural f => f
end

/-! ## Decision parsing (src/server/agent/graph.js `parseAction` and
src/server/agent/message-manager.js `parseActionFromLLM`)

The parsers scan the raw decision text with a handful of concrete regular
expressions (all of the shape: literal opener, lazy any-character capture,
literal closer, found at the leftmost starting position) and hand candidate
substrings to the host `JSON.parse`.  The regexes are implemented directly
over character lists; `JSON.parse` is modelled by `jsonParse`, an executable
parser of the JSON fragment these decisions exercise (null, booleans, integer
numbers, strings with the common escapes, arrays, objects), and the theorems
that do not depend on its exact domain quantify over an arbitrary parse
oracle. -/

/-- An opening brace character (the builder of JSON object syntax). -/
def lbrace : Char := '\x7b'

/-- A closing brace character. -/
def rbrace : Char := '\x7d'

/-- Whether `pat` is a prefix of `hay`. -/
def listStartsWith : List Char → List Char → Bool
  | _, [] => true
  | [], _ :: _ => false
  | a :: as, b :: bs => a == b && listStartsWith as bs

/-- Whether `pat` is a case-insensitive prefix of `hay`. -/
def ciStartsWith : List Char → List Char → Bool
  | _, [] => true
  | [], _ :: _ => false
  | a :: as, b :: bs => a.toLower == b.toLower && ciStartsWith as bs

/-- The index of the first occurrence of `pat` in `hay`, if any. -/
def findSub (pat : List Char) : List Char → Option Nat
  | [] => if listStartsWith [] pat then some 0 else none
  | c :: t =>
    if listStartsWith (c :: t) pat then some 0
    else (findSub pat t).map (fun i => i + 1)

/-- `String.includes` of JavaScript: case-sensitive substring containment. -/
def containsSubstr (s pat : String) : Bool :=
  (findSub pat.data s.data).isSome

/-- One-position attempt of a regex of the shape `opener`, lazy any-character
capture, `closer`: requires the opener here, then captures the shortest span
to the closer; returns `(whole match, capture)`. -/
def matchBetweenAt (opn cls hay : List Char) : Option (List Char × List Char) :=
  if listStartsWith hay opn then
    match findSub cls (hay.drop opn.length) with
    | some k =>
      some (hay.take (opn.length + k + cls.length), (hay.drop opn.length).take k)
    | none => none
  else none

/-- The leftmost-lazy match of the same regex shape: scan for the first
position where a full match starts. -/
def matchBetween (opn cls : List Char) : List Char → Option (List Char × List Char)
  | [] => matchBetweenAt opn cls []
  | c :: t =>
    match matchBetweenAt opn cls (c :: t) with
    | some r => some r
    | none => matchBetween opn cls t

/-- The whitespace class of the regex `\s` escape (ASCII part). -/
def isWsCh (c : Char) : Bool :=
  c == ' ' || c == '\t' || c == '\n' || c == '\r' || c == '\x0b' || c == '\x0c'

/-- Digits-to-number accumulation, as `parseInt` on a digit run. -/
def parseNatDigits (ds : List Char) : Nat :=
  ds.foldl (fun acc c => acc * 10 + (c.toNat - '0'.toNat)) 0

/-- One-position attempt of a regex `key[:\s]+(\d+)` with ignore-case flag:
the key case-insensitively, one or more separators, then a digit run. -/
def matchKeyNumAt (key : List Char) (hay : List Char) : Option Nat :=
  if ciStartsWith hay key then
    let rest := hay.drop key.length
    let seps := rest.takeWhile (fun c => c == ':' || isWsCh c)
    if seps.length = 0 then none
    else
      let rest2 := rest.drop seps.length
      let digits := rest2.takeWhile Char.isDigit
      if digits.length = 0 then none
      else some (parseNatDigits digits)
  else none

/-- The leftmost match of `key[:\s]+(\d+)` (ignore-case). -/
def matchKeyNum (key : List Char) : List Char → Option Nat
  | [] => matchKeyNumAt key []
  | c :: t =>
    match matchKeyNumAt key (c :: t) with
    | some n => some n
    | none => matchKeyNum key t

/-- One-position attempt of `key[:\s]+q([^q]*)q` for a quote character `q`
(ignore-case on the key). -/
def matchKeyQuotedAt (key : List Char) (q : Char) (hay : List Char) : Option (List Char) :=
  if ciStartsWith hay key then
    let rest := hay.drop key.length
    let seps := rest.takeWhile (fun c => c == ':' || isWsCh c)
    if seps.length = 0 then none
    else
      match rest.drop seps.length with
      | c :: rest2 =>
        if c == q then
          let body := rest2.takeWhile (fun c2 => c2 != q)
          match rest2.drop body.length with
          | c2 :: _ => if c2 == q then some body else none
          | [] => none
        else none
      | [] => none
  else none

/-- The leftmost match of `key[:\s]+q([^q]*)q` (ignore-case). -/
def matchKeyQuoted (key : List Char) (q : Char) : List Char → Option (List Char)
  | [] => matchKeyQuotedAt key q []
  | c :: t =>
    match matchKeyQuotedAt key q (c :: t) with
    | some r => some r
    | none => matchKeyQuoted key q t

/-- One-position attempt of `key[:\s]+([^\n,]*)` (ignore-case); the capture
may be empty. -/
def matchKeyBareAt (key : List Char) (hay : List Char) : Option (List Char) :=
  if ciStartsWith hay key then
    let rest := hay.drop key.length
    let seps := rest.takeWhile (fun c => c == ':' || isWsCh c)
    if seps.length = 0 then none
    else some ((rest.drop seps.length).takeWhile (fun c => c != '\n' && c != ','))
  else none

/-- The leftmost match of `key[:\s]+([^\n,]*)` (ignore-case). -/
def matchKeyBare (key : List Char) : List Char → Option (List Char)
  | [] => matchKeyBareAt key []
  | c :: t =>
    match matchKeyBareAt key (c :: t) with
    | some r => some r
    | none => matchKeyBare key t

/-- A JSON value as produced by the host `JSON.parse` on the fragment these
parsers exercise (numbers restricted to integers). -/
inductive JsValue where
  | null
  | bool (b : Bool)
  | num (n : Int)
  | str (s : String)
  | arr (elems : List JsValue)
  | obj (fields : List (String × JsValue))
deriving Repr

mutual
/-- Boolean equality of JSON values. -/
def jsBeq : JsValue → JsValue → Bool
  | .null, .null => true
  | .bool a, .bool b => a == b
  | .num a, .num b => a == b
  | .str a, .str b => a == b
  | .arr a, .arr b => jsBeqList a b
  | .obj a, .obj b => jsBeqFields a b
  | _, _ => false

/-- Boolean equality of JSON value lists. -/
def jsBeqList : List JsValue → List JsValue → Bool
  | [], [] => true
  | a :: as, b :: bs => jsBeq a b && jsBeqList as bs
  | _, _ => false

/-- Boolean equality of JSON field lists. -/
def jsBeqFields : List (String × JsValue) → List (String × JsValue) → Bool
  | [], [] => true
  | (k1, v1) :: as, (k2, v2) :: bs => k1 == k2 && jsBeq v1 v2 && jsBeqFields as bs
  | _, _ => false
end

instance : BEq JsValue :=
  ⟨jsBeq⟩

/-- JavaScript truthiness of a parsed JSON value. -/
def truthy : JsValue → Bool
  | .null => false
  | .bool b => b
  | .num n => n != 0
  | .str s => s != ""
  | .arr _ => true
  | .obj _ => true

/-- Property access `v.name`: a field of an object, `undefined` otherwise. -/
def getField : JsValue → String → Option JsValue
  | .obj fields, name => (fields.find? (fun p => p.1 == name)).map (fun p => p.2)
  | _, _ => none

/-- Truthiness of `v.name`, where an absent property (`undefined`) is falsy. -/
def truthyField (v : JsValue) (name : String) : Bool :=
  match getField v name with
  | some f => truthy f
  | none => false

/-- Skip JSON whitespace. -/
def skipWs : List Char → List Char
  | c :: t => if c == ' ' || c == '\t' || c == '\n' || c == '\r' then skipWs t else c :: t
  | [] => []

/-- Parse the remainder of a JSON string literal after its opening quote,
handling the common escapes. -/
def parseStringBody : List Char → List Char → Option (String × List Char)
  | [], _ => none
  | '"' :: rest, acc => some (String.mk acc.reverse, rest)
  | '\\' :: [], _ => none
  | '\\' :: e :: rest, acc =>
    if e == '"' then parseStringBody rest ('"' :: acc)
    else if e == '\\' then parseStringBody rest ('\\' :: acc)
    else if e == '/' then parseStringBody rest ('/' :: acc)
    else if e == 'n' then parseStringBody rest ('\n' :: acc)
    else if e == 't' then parseStringBody rest ('\t' :: acc)
    else if e == 'r' then parseStringBody rest ('\r' :: acc)
    else if e == 'b' then parseStringBody rest ('\x08' :: acc)
    else if e == 'f' then parseStringBody rest ('\x0c' :: acc)
    else none
  | c :: rest, acc => parseStringBody rest (c :: acc)

/-- Parse a JSON integer number (fractional and exponent forms are outside
the modelled fragment). -/
def parseNumber (cs : List Char) : Option (JsValue × List Char) :=
  let signed := match cs with
    | '-' :: t => (true, t)
    | _ => (false, cs)
  let ds := signed.2.takeWhile Char.isDigit
  if ds.length = 0 then none
  else
    match signed.2.drop ds.length with
    | '.' :: _ => none
    | 'e' :: _ => none
    | 'E' :: _ => none
    | rest =>
      let n : Int := Int.ofNat (parseNatDigits ds)
      some (.num (if signed.1 then -n else n), rest)

mutual
/-- Fuelled recursive-descent parse of one JSON value. -/
def parseJsonValue : Nat → List Char → Option (JsValue × List Char)
  | 0, _ => none
  | fuel + 1, cs =>
    match skipWs cs with
    | 'n' :: 'u' :: 'l' :: 'l' :: rest => some (.null, rest)
    | 't' :: 'r' :: 'u' :: 'e' :: rest => some (.bool true, rest)
    | 'f' :: 'a' :: 'l' :: 's' :: 'e' :: rest => some (.bool false, rest)
    | '"' :: rest => (parseStringBody rest []).map (fun r => (.str r.1, r.2))
    | c :: rest =>
      if c == lbrace then parseJsonObjectBody fuel rest []
      else if c == '[' then parseJsonArrayBody fuel rest []
      else parseNumber (c :: rest)
    | [] => none

/-- Parse array elements after `[` or a separating comma. -/
def parseJsonArrayBody : Nat → List Char → List JsValue → Option (JsValue × List Char)
  | 0, _, _ => none
  | fuel + 1, cs, acc =>
    match skipWs cs with
    | c :: rest =>
      if c == ']' && acc.isEmpty then some (.arr [], rest)
      else
        match parseJsonValue fuel (c :: rest) with
        | none => none
        | some (v, cs2) =>
          match skipWs cs2 with
          | ',' :: cs3 => parseJsonArrayBody fuel cs3 (acc ++ [v])
          | ']' :: cs3 => some (.arr (acc ++ [v]), cs3)
          | _ => none
    | [] => none

/-- Parse object members after the opening brace or a separating comma. -/
def parseJsonObjectBody : Nat → List Char → List (String × JsValue) →
    Option (JsValue × List Char)
  | 0, _, _ => none
  | fuel + 1, cs, acc =>
    match skipWs cs with
    | c :: rest =>
      if c == rbrace && acc.isEmpty then some (.obj [], rest)
      else if c == '"' then
        match parseStringBody rest [] with
        | none => none
        | some (key, cs2) =>
          match skipWs cs2 with
          | ':' :: cs3 =>
            match parseJsonValue fuel cs3 with
            | none => none
            | some (v, cs4) =>
              match skipWs cs4 with
              | ',' :: cs5 => parseJsonObjectBody fuel cs5 (acc ++ [(key, v)])
              | c2 :: cs5 => if c2 == rbrace then some (.obj (acc ++ [(key, v)]), cs5) else none
              | [] => none
          | _ => none
      else none
    | [] => none
end

/-- The host `JSON.parse`, modelled on the fragment above: parse one value
and require only whitespace to remain. -/
def jsonParse (s : String) : Option JsValue :=
  match parseJsonValue (s.length + 1) s.data with
  | some (v, rest) => if (skipWs rest).isEmpty then some v else none
  | none => none

/-- The regex tier ```` /```json\n([\s\S]*?)\n```/ ````:
`(whole match, capture)`. -/
def matchFence1 (s : String) : Option (String × String) :=
  (matchBetween ("```json\n".data) ("\n```".data) s.data).map
    (fun r => (String.mk r.1, String.mk r.2))

/-- The regex tier ```` /```([\s\S]*?)```/ ````. -/
def matchFence2 (s : String) : Option (String × String) :=
  (matchBetween ("```".data) ("```".data) s.data).map
    (fun r => (String.mk r.1, String.mk r.2))

/-- The regex tier matching a brace-delimited span (lazy): whole match only,
as the regex has no capture group. -/
def matchBraces (s : String) : Option String :=
  (matchBetween [lbrace] [rbrace] s.data).map (fun r => String.mk r.1)

/-- Strip one leading newline, as a leading greedy `\n?` does. -/
def stripLeadNL : List Char → List Char
  | '\n' :: t => t
  | l => l

/-- Strip one trailing newline, as a trailing greedy `\n?` before the closer
does. -/
def stripTrailNL (l : List Char) : List Char :=
  (stripLeadNL l.reverse).reverse

/-- The regex ```` /```\n?([\s\S]*?)\n?```/ ```` of `parseActionFromLLM`: the
whole match is the first fenced span, and the greedy optional newlines strip
one newline from each end of the capture. -/
def matchFence2Trim (s : String) : Option (String × String) :=
  (matchBetween ("```".data) ("```".data) s.data).map
    (fun r => (String.mk r.1, String.mk (stripTrailNL (stripLeadNL r.2))))

/-- The regex tiering of `parseAction`: the json fence, then any fence, then
a brace span; `(whole match, capture when the regex has a group)`. -/
def jsonMatchTiers (thinkingOutput : String) : Option (String × Option String) :=
  match matchFence1 thinkingOutput with
  | some (w, c) => some (w, some c)
  | none =>
    match matchFence2 thinkingOutput with
    | some (w, c) => some (w, some c)
    | none =>
      match matchBraces thinkingOutput with
      | some w => some (w, none)
      | none => none

/-- The last-resort keyword heuristics of `parseAction`, in source order;
`.error` marks the final throw. -/
def heuristicAction (thinkingOutput : String) : Except String JsValue :=
  if containsSubstr thinkingOutput "click" || containsSubstr thinkingOutput "select" then
    .ok (.obj [("type", .str "click"),
      ("index", .num (Int.ofNat ((matchKeyNum ("index".data) thinkingOutput.data).getD 0)))])
  else if containsSubstr thinkingOutput "type" || containsSubstr thinkingOutput "input" then
    .ok (.obj [("type", .str "input"),
      ("index", .num (Int.ofNat ((matchKeyNum ("index".data) thinkingOutput.data).getD 0))),
      ("text", .str (match
          (match matchKeyQuoted ("text".data) '"' thinkingOutput.data with
           | some r => some r
           | none =>
             match matchKeyQuoted ("text".data) '\x27' thinkingOutput.data with
             | some r => some r
             | none => matchKeyBare ("text".data) thinkingOutput.data) with
        | some cs => jsTrim (String.mk cs)
        | none => ""))])
  else if containsSubstr thinkingOutput "scroll" then
    .ok (.obj [("type", .str "scroll"),
      ("direction", .str (if containsSubstr thinkingOutput "down" then "down" else "up")),
      ("amount", .num (Int.ofNat ((matchKeyNum ("amount".data) thinkingOutput.data).getD 500)))])
  else if containsSubstr thinkingOutput "done" || containsSubstr thinkingOutput "complete" then
    .ok (.obj [("type", .str "done"),
      ("success", .bool (containsSubstr thinkingOutput "success" &&
        !(containsSubstr thinkingOutput "not success")))])
  else
    .error "Could not parse action from LLM response"

/-- The body of `AgentGraph.parseAction` (everything inside its `try`):
extract a JSON candidate by fence or brace regexes, fall back to parsing the
whole output, then to keyword heuristics; `.error` marks the paths where the
source throws. -/
def parseActionBody (parseJson : String → Option JsValue) (thinkingOutput : String) :
    Except String JsValue :=
  match jsonMatchTiers thinkingOutput with
  | some (whole, cap) =>
    match parseJson (match cap with
      | some c => if c != "" then c else whole
      | none => whole) with
    | none => .error "Unexpected token in JSON"
    | some actionJsonV =>
      if !(truthyField actionJsonV "type") then .error "Action missing type"
      else .ok actionJsonV
  | none =>
    match parseJson thinkingOutput with
    | some action =>
      if truthyField action "type" then .ok action
      else heuristicAction thinkingOutput
    | none => heuristicAction thinkingOutput

/-- `AgentGraph.parseAction`: the body under its catch-all handler, which
converts any failure into a synthetic failed `done` action. -/
def parseAction (parseJson : String → Option JsValue) (thinkingOutput : String) : JsValue :=
  match parseActionBody parseJson thinkingOutput with
  | .ok v => v
  | .error msg =>
    .obj [("type", .str "done"), ("success", .bool false),
          ("error", .str ("Failed to determine next action: " ++ msg))]

/-- The display of `actionModel.type` inside the thrown xpath-validation
message. -/
def typeDisplay : Option JsValue → String
  | some (.str s) => s
  | _ => "undefined"

/-- The action-model flattening `{ type: parsed.action.type, ...parsed.action }`
of `parseActionFromLLM`: the spread of a parsed object keeps its fields, and
the synthesized leading `type` carries `parsed.action.type` (`null` standing
for an absent property; a non-object `action` value yields no fields of its
own). -/
def actionModelOf (parsed : JsValue) : JsValue :=
  match getField parsed "action" with
  | some (.obj fs) =>
    JsValue.obj
      (("type", ((fs.find? (fun p => p.1 == "type")).map (fun p => p.2)).getD .null) :: fs)
  | _ => JsValue.obj [("type", .null)]

/-- The fence stripping at the top of `parseActionFromLLM`: a json fence, or
any fence, when present and capturing a non-empty span; otherwise the raw
response. -/
def fenceExtract (response : String) : String :=
  if containsSubstr response "```json" then
    match matchFence1 response with
    | some (_, c) => if c != "" then c else response
    | none => response
  else if containsSubstr response "```" then
    match matchFence2Trim response with
    | some (_, c) => if c != "" then c else response
    | none => response
  else response

/-- The body of `AgentService.parseActionFromLLM` (everything inside its
`try`): strip a markdown fence when present, parse, require `action` and
`current_state`, flatten to an action model, and validate that element
actions carry an xpath or index. -/
def parseActionFromLLMBody (parseJson : String → Option JsValue) (response : String) :
    Except String JsValue :=
  match parseJson (fenceExtract response) with
  | none => .error "Unexpected token in JSON"
  | some parsed =>
    if !(truthyField parsed "action") || !(truthyField parsed "current_state") then
      .error "Invalid response structure: missing action or current_state"
    else
      if ((getField (actionModelOf parsed) "type" == some (.str "click_element") ||
           getField (actionModelOf parsed) "type" == some (.str "input_text")) &&
          !(truthyField (actionModelOf parsed) "xpath") &&
          (getField (actionModelOf parsed) "index").isNone) then
        .error ("Action type " ++ typeDisplay (getField (actionModelOf parsed) "type") ++
          " requires \x27xpath\x27 parameter")
      else .ok (actionModelOf parsed)

/-- `AgentService.parseActionFromLLM`: the body under its catch-all handler,
which converts any failure into a synthetic action of type `"error"`. -/
def parseActionFromLLM (parseJson : String → Option JsValue) (response : String) : JsValue :=
  match parseActionFromLLMBody parseJson response with
  | .ok v => v
  | .error msg =>
    .obj [("type", .str "error"), ("message", .str ("Failed to parse response: " ++ msg))]

/-! ## Action executor (src/extension/actionController.js)

The live page is embedded as a store of elements keyed by their structural
locator, plus the observable side effects of the executor: the focused
element, the dispatched-event log, the scroll offset and the performed
pauses.  Whether each click tier raises is a per-element host observation
(`clickThrows` for the direct activation, `dispatchClickThrows` for the
synthetic click event, `dispatchMouseThrows` for the press/release pair).
Thrown errors are `Except.error` values carrying the message; the state at
the throw point is kept, as JavaScript mutations persist past a throw. -/

/-- One live element as the executor observes and mutates it. -/
structure PageElem where
  tagName : String
  value : String := ""
  isContentEditable : Bool := false
  textContent : String := ""
  clickThrows : Bool := false
  dispatchClickThrows : Bool := false
  dispatchMouseThrows : Bool := false
deriving Repr, DecidableEq

/-- The observable page state. -/
structure Page where
  elems : List (String × PageElem)
  focused : Option String := none
  events : List String := []
  scrollY : Int := 0
  innerHeight : Int := 600
  waitedMs : List Int := []
deriving Repr, DecidableEq

/-- `document.evaluate` on a locator: the element it resolves to, if any. -/
def Page.findElementByXPath (p : Page) (xpath : String) : Option PageElem :=
  (p.elems.find? (fun e => e.1 == xpath)).map (fun e => e.2)

/-- Write back a mutated element under its locator. -/
def Page.setElem (p : Page) (xpath : String) (el : PageElem) : Page :=
  { p with elems := p.elems.map (fun e => if e.1 == xpath then (xpath, el) else e) }

/-- Record one dispatched event. -/
def Page.withEvent (p : Page) (e : String) : Page :=
  { p with events := p.events ++ [e] }

/-- The executor's result value. -/
structure ActionResult where
  success : Bool
  message : Option String := none
  error : Option String := none
  extracted : Option String := none
  isComplete : Bool := false
  finalMessage : Option String := none
  taskSuccess : Bool := true
deriving Repr, DecidableEq

/-- The controller state: the legacy index-addressed selector map (the live
element references it holds are modelled by the locator they resolve
through) and the debug flag. -/
structure ActionController where
  selectorMap : List (Int × String)
  debug : Bool := false
deriving Repr, DecidableEq

/-- The shared three-tier click attempt on a resolved element: direct
activation, then a synthetic click event, then a synthetic press/release pair
at the visual centre — the next tier runs only when the previous one raised,
and an error from the last tier propagates.  Returns the outcome, the page
after the performed interactions, and the tiers attempted. -/
def clickResolvedElement (p : Page) (xpath : String) (el : PageElem)
    (okMessage : String) : (Except String ActionResult) × Page × List String :=
  if !el.clickThrows then
    (.ok { success := true, message := some okMessage },
     p.withEvent ("click@" ++ xpath), ["click"])
  else if !el.dispatchClickThrows then
    (.ok { success := true, message := some okMessage },
     p.withEvent ("dispatchClick@" ++ xpath), ["click", "dispatchClick"])
  else if !el.dispatchMouseThrows then
    (.ok { success := true, message := some okMessage },
     (p.withEvent ("mousedown@" ++ xpath)).withEvent ("mouseup@" ++ xpath),
     ["click", "dispatchClick", "mouseEvents"])
  else
    (.error "mouse event dispatch failed", p, ["click", "dispatchClick", "mouseEvents"])

/-- `clickElementByXPath`: resolve by locator (a failure throws), bring into
view and settle (no modelled state change), then run the click tiers. -/
def clickElementByXPath (p : Page) (xpath : String) :
    (Except String ActionResult) × Page × List String :=
  match p.findElementByXPath xpath with
  | none => (.error ("Element with XPath \"" ++ xpath ++ "\" not found"), p, [])
  | some el =>
    clickResolvedElement p xpath el ("Clicked element with XPath \"" ++ xpath ++ "\"")

/-- `clickElement` (legacy): resolve through the selector map, then run the
same click tiers. -/
def clickElement (ctrl : ActionController) (p : Page) (index : Int) :
    (Except String ActionResult) × Page × List String :=
  match (ctrl.selectorMap.find? (fun e => e.1 == index)).map (fun e => e.2) with
  | none => (.error ("Element with index " ++ toString index ++ " not found"), p, [])
  | some xpath =>
    match p.findElementByXPath xpath with
    | none => (.error ("Element with index " ++ toString index ++ " not found"), p, [])
    | some el =>
      clickResolvedElement p xpath el ("Clicked element with index " ++ toString index)

/-- The shared typing routine on a resolved element: focus, clear the
existing value (value property for form controls, content for editable
regions), then — when a text payload is present — append it one character at
a time with an input notification each, and a final change notification.
Iterating an absent payload raises after the focus and the clear have already
mutated the page. -/
def inputTextResolved (p : Page) (xpath : String) (el : PageElem)
    (text : Option String) (okMessage : String) : (Except String ActionResult) × Page :=
  let p1 := { p with focused := some xpath, events := p.events ++ ["focus@" ++ xpath] }
  let el1 :=
    if el.tagName == "INPUT" || el.tagName == "TEXTAREA" then { el with value := "" }
    else if el.isContentEditable then { el with textContent := "" }
    else el
  let p2 := p1.setElem xpath el1
  match text with
  | none => (.error "text is not iterable", p2)
  | some t =>
    let fin := t.data.foldl (fun (acc : PageElem × Page) c =>
      let el2 :=
        if acc.1.tagName == "INPUT" || acc.1.tagName == "TEXTAREA" then
          { acc.1 with value := acc.1.value ++ String.mk [c] }
        else if acc.1.isContentEditable then
          { acc.1 with textContent := acc.1.textContent ++ String.mk [c] }
        else acc.1
      (el2, (acc.2.setElem xpath el2).withEvent ("input@" ++ xpath))) (el1, p2)
    ((.ok { success := true, message := some okMessage }),
     fin.2.withEvent ("change@" ++ xpath))

/-- `inputTextByXPath`. -/
def inputTextByXPath (p : Page) (xpath : String) (text : Option String) :
    (Except String ActionResult) × Page :=
  match p.findElementByXPath xpath with
  | none => (.error ("Element with XPath \"" ++ xpath ++ "\" not found"), p)
  | some el =>
    inputTextResolved p xpath el text
      ("Input text \"" ++ text.getD "undefined" ++ "\" into element with XPath \"" ++ xpath ++ "\"")

/-- `inputText` (legacy): resolve through the selector map, then type. -/
def inputText (ctrl : ActionController) (p : Page) (index : Int) (text : Option String) :
    (Except String ActionResult) × Page :=
  match (ctrl.selectorMap.find? (fun e => e.1 == index)).map (fun e => e.2) with
  | none => (.error ("Element with index " ++ toString index ++ " not found"), p)
  | some xpath =>
    match p.findElementByXPath xpath with
    | none => (.error ("Element with index " ++ toString index ++ " not found"), p)
    | some el =>
      inputTextResolved p xpath el text
        ("Input text \"" ++ text.getD "undefined" ++ "\" into element with index " ++ toString index)

/-- `extractContent`: reading a goal that is absent raises; otherwise the
read-only, keyword-driven assembly of visible page content succeeds (the
assembled text itself is not modelled). -/
def extractContent (p : Page) (goal : Option String) :
    (Except String ActionResult) × Page :=
  match goal with
  | none => (.error "Cannot read properties of undefined (reading \x27toLowerCase\x27)", p)
  | some _ => (.ok { success := true, extracted := some "" }, p)

/-- `scroll`: a missing direction defaults to `"down"`, a missing or zero
amount (falsy) to half the viewport height; scrolls by the signed amount. -/
def scroll (p : Page) (direction : Option String) (amount : Option Int) :
    (Except String ActionResult) × Page :=
  let dir := direction.getD "down"
  let scrollAmount :=
    match amount with
    | none => p.innerHeight / 2
    | some a => if a = 0 then p.innerHeight / 2 else a
  let dy := if jsToLower dir == "down" then scrollAmount else -scrollAmount
  (.ok { success := true,
         message := some ("Scrolled " ++ dir ++ " by " ++ toString scrollAmount ++ "px") },
   { p with scrollY := p.scrollY + dy })

/-- The pause performed by `wait`: the requested seconds in milliseconds,
clamped to between 100 and 30000. -/
def waitMs (seconds : Int) : Int :=
  max 100 (min 30000 (seconds * 1000))

/-- `wait`: pause for the clamped duration, then report success. -/
def wait (p : Page) (seconds : Int) : (Except String ActionResult) × Page :=
  (.ok { success := true, message := some ("Waited for " ++ toString seconds ++ " seconds") },
   { p with waitedMs := p.waitedMs ++ [waitMs seconds] })

/-- `done`: terminal, always executor-level success; the carried flag
defaults to true when absent. -/
def done (text : Option String) (success : Option Bool) : ActionResult :=
  { success := true, isComplete := true, finalMessage := text,
    taskSuccess := success.getD true }

/-- An action value as the executor receives it (absent fields are the
JavaScript `undefined`). -/
structure Action where
  type : String
  xpath : Option String := none
  index : Option Int := none
  text : Option String := none
  goal : Option String := none
  direction : Option String := none
  amount : Option Int := none
  seconds : Option Int := none
  success : Option Bool := none
deriving Repr, DecidableEq

/-- The dispatch inside `executeAction`'s `try`: element actions prefer a
truthy locator, fall back to a present index, and throw when both are
missing; `wait` substitutes one second for a falsy `seconds`; an unknown type
throws. -/
def executeActionBody (ctrl : ActionController) (p : Page) (action : Action) :
    (Except String ActionResult) × Page :=
  if action.type == "click_element" then
    if action.xpath.getD "" != "" then
      let r := clickElementByXPath p (action.xpath.getD "")
      (r.1, r.2.1)
    else
      match action.index with
      | some i =>
        let r := clickElement ctrl p i
        (r.1, r.2.1)
      | none => (.error "click_element requires either xpath or index parameter", p)
  else if action.type == "input_text" then
    if action.xpath.getD "" != "" then
      inputTextByXPath p (action.xpath.getD "") action.text
    else
      match action.index with
      | some i => inputText ctrl p i action.text
      | none => (.error "input_text requires either xpath or index parameter", p)
  else if action.type == "extract_content" then extractContent p action.goal
  else if action.type == "scroll" then scroll p action.direction action.amount
  else if action.type == "wait" then
    wait p (match action.seconds with
            | none => 1
            | some s => if s = 0 then 1 else s)
  else if action.type == "done" then (.ok (done action.text action.success), p)
  else (.error ("Unknown action type: " ++ action.type), p)

/-- `executeAction`: the dispatch under its catch-all handler, which converts
any thrown error into a failed result (the page keeps the mutations made
before the throw). -/
def executeAction (ctrl : ActionController) (p : Page) (action : Action) :
    ActionResult × Page :=
  match executeActionBody ctrl p action with
  | (.ok r, p2) => (r, p2)
  | (.error msg, p2) => ({ success := false, error := some msg }, p2)

/-! ## In-page action queue (content script `handleAction` in the background
/ content bundle)

The content script is single-threaded and cooperative; the relevant
occurrences are modelled as atomic events: an action message arriving, the
awaited `executeAction` completing (its result is sent at that point and the
settle timer is armed), and the settle timer firing (which clears the
processing flag, collects and sends a fresh DOM state, and starts the next
queued action, if any).  The phase tracks `isProcessing`: it is set from the
start of execution until the timer callback runs.  The trace records starts,
result sends and DOM collections for the temporal statements. -/

/-- The processing phase of the content script. -/
inductive CPhase (α : Type) where
  | idle
  | running (a : α)
  | settling
deriving Repr, DecidableEq

/-- Observable trace items: an action starting, its result being sent, and a
fresh DOM state being collected and sent. -/
inductive CTr (α : Type) where
  | start (a : α)
  | result (a : α) (success : Bool)
  | collect
deriving Repr, DecidableEq

/-- External events driving `handleAction`. -/
inductive CEv (α : Type) where
  | arrive (a : α)
  | execDone (success : Bool)
  | timer
deriving Repr, DecidableEq

/-- The content-script state: phase, pending queue and trace. -/
structure CState (α : Type) where
  phase : CPhase α
  pendingActionQueue : List α
  trace : List (CTr α)
deriving Repr, DecidableEq

/-- The initial content-script state. -/
def cinit (α : Type) : CState α :=
  { phase := .idle, pendingActionQueue := [], trace := [] }

/-- One event step of `handleAction`: an arrival while processing is queued,
otherwise execution starts; completion sends the result and arms the timer;
the timer collects a fresh DOM state and dequeues the next action, if any.
Completion and timer events outside their phase cannot occur in the host and
leave the state unchanged. -/
def cstep {α : Type} : CState α → CEv α → CState α
  | s, .arrive a =>
    match s.phase with
    | .idle => { s with phase := .running a, trace := s.trace ++ [.start a] }
    | _ => { s with pendingActionQueue := s.pendingActionQueue ++ [a] }
  | s, .execDone ok =>
    match s.phase with
    | .running a => { s with phase := .settling, trace := s.trace ++ [.result a ok] }
    | _ => s
  | s, .timer =>
    match s.phase with
    | .settling =>
      match s.pendingActionQueue with
      | [] => { s with phase := .idle, trace := s.trace ++ [.collect] }
      | next :: rest =>
        { phase := .running next, pendingActionQueue := rest,
          trace := s.trace ++ [.collect, .start next] }
    | _ => s

/-- Run the content script over an event sequence from the initial state. -/
def crun {α : Type} (evs : List (CEv α)) : CState α :=
  evs.foldl cstep (cinit α)

/-- The single-flight acceptance automaton over traces: an action may start
only when no action is in flight, its result must be sent before anything
else, and a fresh DOM collection must follow before the next start. -/
inductive AState (α : Type) where
  | ready
  | executing (a : α)
  | reported
deriving Repr, DecidableEq

/-- One acceptance step (`none` = the trace violates single flight or the
re-observe-before-next-start discipline). -/
def traceStep {α : Type} [DecidableEq α] : Option (AState α) → CTr α → Option (AState α)
  | some .ready, .start a => some (.executing a)
  | some (.executing a), .result b _ => if a = b then some .reported else none
  | some .reported, .collect => some .ready
  | _, _ => none

/-- Run the acceptance automaton over a trace. -/
def traceRun {α : Type} [DecidableEq α] (tr : List (CTr α)) : Option (AState α) :=
  tr.foldl traceStep (some .ready)

/-- The acceptance state corresponding to each phase. -/
def phaseA {α : Type} : CPhase α → AState α
  | .idle => .ready
  | .running a => .executing a
  | .settling => .reported

/-! ## Derived notions and concrete inputs used by the statements below -/

/-- The sum of the token estimates stored in a message list, the quantity the
running counter is asserted to track. -/
def sumTokens (l : List HistoryEntry) : Int :=
  (l.map (fun e => e.metadata.tokens)).sum

/-- Whether every stored message has role `"system"`. -/
def allSystemRole (l : List HistoryEntry) : Bool :=
  l.all (fun e => e.message.role == "system")

/-- The system-instruction message installed first by the constructor. -/
def systemMessage : ChatMessage :=
  { role := "system", content := systemContent }

/-- Whether a JSON value is an object. -/
def isObjValue : JsValue → Bool
  | .obj _ => true
  | _ => false

/-- The seconds value `wait` actually receives from the dispatcher: the
caller's value, with an absent or zero (falsy) value replaced by the default
of one second. -/
def effectiveWaitSeconds (s : Option Int) : Int :=
  match s with
  | none => 1
  | some k => if k = 0 then 1 else k

/-- A neutral visible computed style. -/
def st0 : Style :=
  { visibility := "visible", display := "block", opacity := "1", cursor := "auto" }

/-- A small on-screen rectangle. -/
def rc0 : Rect :=
  { top := 10, bottom := 20, left := 10, right := 20 }

/-- A visible, topmost, interactive button element. -/
def childD : ElemData :=
  { tagName := "BUTTON", attrs := [], offsetWidth := 10, offsetHeight := 10,
    style := st0, rect := rc0, isBody := false, topOracle := true,
    onclickProp := false, draggableProp := false }

/-- A visible, topmost container made interactive by an `onclick`
attribute. -/
def parentD : ElemData :=
  { tagName := "DIV", attrs := [("onclick", "go()")], offsetWidth := 100,
    offsetHeight := 100, style := st0, rect := rc0, isBody := false,
    topOracle := true, onclickProp := false, draggableProp := false }

/-- The top document body, fully transparent (failing the visibility test)
yet topmost at its centre and carrying a click-handler attribute. -/
def bodyD : ElemData :=
  { tagName := "BODY", attrs := [("onclick", "go()")], offsetWidth := 100,
    offsetHeight := 100, style := { st0 with opacity := "0" }, rect := rc0,
    isBody := true, topOracle := true, onclickProp := false,
    draggableProp := false }

/-- A default builder configuration: 300 pixel expansion, 800 by 600
viewport. -/
def cfg0 : BuildConfig :=
  { viewportExpansion := 300, win := { innerWidth := 800, innerHeight := 600 } }

/-- A two-element document: an interactive container holding an interactive
button. -/
def demoTree : DomNode :=
  .elem parentD (.cons (.elem childD .nil) .nil)

/-- A text input holding the value `"hello"`. -/
def inputEl : PageElem :=
  { tagName := "INPUT", value := "hello" }

/-- A page with that one input element. -/
def page0 : Page :=
  { elems := [("html/body/input", inputEl)] }

/-- A controller with an empty legacy selector map. -/
def ctrl0 : ActionController :=
  { selectorMap := [] }

/-- An input-text action carrying a resolvable locator but no text payload. -/
def actMissingText : Action :=
  { type := "input_text", xpath := some "html/body/input" }

/-- A click action carrying neither locator nor index. -/
def actNoTarget : Action :=
  { type := "click_element" }

/-- A page whose single element raises on the direct activation but accepts
the synthetic click event. -/
def page1 : Page :=
  { elems := [("html/body/a", { tagName := "A", clickThrows := true })] }

/-- A controller whose legacy selector map resolves index 5 to the anchor of
`page1`. -/
def ctrl1 : ActionController :=
  { selectorMap := [(5, "html/body/a")] }

/-- A visible, interactive button whose box lies 100 pixels below the bottom
of a 600-pixel viewport (its centre is at client y = 710); it would be the
topmost element at its centre were that point on screen. -/
def offscreenD : ElemData :=
  { tagName := "BUTTON", attrs := [], offsetWidth := 10, offsetHeight := 10,
    style := st0, rect := { top := 700, bottom := 720, left := 10, right := 20 },
    isBody := false, topOracle := true, onclickProp := false,
    draggableProp := false }

/-- A builder configuration with the viewport check disabled. -/
def cfgNeg1 : BuildConfig :=
  { viewportExpansion := -1, win := { innerWidth := 800, innerHeight := 600 } }

/-! ## Conversation-manager lemmas -/

/-- Token sums distribute over appending. -/
theorem sumTokens_append (l1 l2 : List HistoryEntry) :
    sumTokens (l1 ++ l2) = sumTokens l1 + sumTokens l2 := by
  simp [sumTokens]

/-- Removing the entry at a valid index removes exactly its tokens from the
sum. -/
theorem sumTokens_eraseIdx :
    ∀ (l : List HistoryEntry) (i : Nat) (e : HistoryEntry),
      l[i]? = some e → sumTokens (l.eraseIdx i) = sumTokens l - e.metadata.tokens
  | [], i, e, h => by simp at h
  | x :: t, 0, e, h => by
    simp only [List.getElem?_cons_zero, Option.some_inj] at h
    subst h
    simp [sumTokens, List.eraseIdx]
  | x :: t, i + 1, e, h => by
    simp only [List.getElem?_cons_succ] at h
    have ih := sumTokens_eraseIdx t i e h
    simp only [List.eraseIdx, sumTokens, List.map_cons, List.sum_cons] at ih ⊢
    omega

/-- `addMessage` keeps the counter equal to the stored token sum. -/
theorem addMessage_tokens (h : MessageHistory) (msg : ChatMessage) (meta : MessageMetadata)
    (inv : h.currentTokens = sumTokens h.messages) :
    (h.addMessage msg meta).currentTokens = sumTokens (h.addMessage msg meta).messages := by
  simp [MessageHistory.addMessage, sumTokens_append, inv, sumTokens]

/-- `trimIfNeeded` keeps the counter equal to the stored token sum: it
subtracts exactly the removed entry's tokens. -/
theorem trimIfNeeded_tokens (h : MessageHistory) (mt : Int)
    (inv : h.currentTokens = sumTokens h.messages) :
    ((h.trimIfNeeded mt).2).currentTokens = sumTokens ((h.trimIfNeeded mt).2).messages := by
  unfold MessageHistory.trimIfNeeded
  by_cases hc : h.currentTokens ≤ mt
  · rw [if_pos hc]; exact inv
  · rw [if_neg hc]
    generalize hf : findFirstNonSystem h.messages = fr
    cases fr with
    | none => exact inv
    | some i =>
      dsimp only
      generalize hg : h.messages[i]? = gr
      cases gr with
      | none => exact inv
      | some removed =>
        dsimp only
        have hs := sumTokens_eraseIdx h.messages i removed hg
        omega

/-- The claim's running-counter invariant, for any operation sequence from
the fresh history. -/
theorem applyOps_tokens (ops : List HistOp) (h : MessageHistory)
    (inv : h.currentTokens = sumTokens h.messages) :
    (h.applyOps ops).currentTokens = sumTokens (h.applyOps ops).messages := by
  induction ops generalizing h with
  | nil => exact inv
  | cons op rest ih =>
    have step : (h.applyOp op).currentTokens = sumTokens (h.applyOp op).messages := by
      cases op with
      | add msg meta => exact addMessage_tokens h msg meta inv
      | trim mt => exact trimIfNeeded_tokens h mt inv
    simpa [MessageHistory.applyOps, List.foldl_cons] using ih (h.applyOp op) step

/-- When the index scan finds nothing, every stored message has role
`"system"`. -/
theorem findFirstNonSystem_none_all :
    ∀ l, findFirstNonSystem l = none → allSystemRole l = true
  | [], _ => rfl
  | e :: t, h => by
    unfold findFirstNonSystem at h
    by_cases hr : (e.message.role != "system") = true
    · rw [if_pos hr] at h
      exact absurd h (by simp)
    · rw [if_neg hr] at h
      have hft : findFirstNonSystem t = none := by
        cases hft : findFirstNonSystem t with
        | none => rfl
        | some j => rw [hft] at h; simp at h
      have ht := findFirstNonSystem_none_all t hft
      unfold allSystemRole at ht ⊢
      rw [List.all_cons, ht, Bool.and_true]
      simpa using hr

/-- The index scan only returns positions inside the list. -/
theorem findFirstNonSystem_lt :
    ∀ (l : List HistoryEntry) (i : Nat), findFirstNonSystem l = some i → i < l.length
  | [], i, h => by simp [findFirstNonSystem] at h
  | e :: t, i, h => by
    unfold findFirstNonSystem at h
    by_cases hr : (e.message.role != "system") = true
    · rw [if_pos hr] at h
      cases h
      simp
    · rw [if_neg hr] at h
      obtain ⟨j, hj, rfl⟩ := Option.map_eq_some'.mp h
      have := findFirstNonSystem_lt t j hj
      simp
      omega

/-- When the head has role `"system"`, the index scan never points at it. -/
theorem findFirstNonSystem_pos (x : HistoryEntry) (t : List HistoryEntry) (i : Nat)
    (hr : x.message.role = "system")
    (hf : findFirstNonSystem (x :: t) = some i) : ∃ j, i = j + 1 := by
  unfold findFirstNonSystem at hf
  rw [if_neg (by simp [hr])] at hf
  obtain ⟨j, _, rfl⟩ := Option.map_eq_some'.mp hf
  exact ⟨j, rfl⟩

/-- Erasing at a positive index keeps the head. -/
theorem head?_eraseIdx_succ {α : Type} (l : List α) (j : Nat) :
    (l.eraseIdx (j + 1)).head? = l.head? := by
  cases l <;> simp [List.eraseIdx]

/-- `trimIfNeeded` never evicts a head entry of role `"system"`. -/
theorem trimIfNeeded_head (h : MessageHistory) (mt : Int) (e0 : HistoryEntry)
    (hh : h.messages.head? = some e0) (hr : e0.message.role = "system") :
    ((h.trimIfNeeded mt).2).messages.head? = some e0 := by
  unfold MessageHistory.trimIfNeeded
  by_cases hc : h.currentTokens ≤ mt
  · rw [if_pos hc]; exact hh
  · rw [if_neg hc]
    generalize hf : findFirstNonSystem h.messages = fr
    cases fr with
    | none => exact hh
    | some i =>
      dsimp only
      generalize hg : h.messages[i]? = gr
      cases gr with
      | none => exact hh
      | some removed =>
        dsimp only
        generalize hm : h.messages = L at hf hh ⊢
        cases L with
        | nil => simp at hh
        | cons x t =>
          have hx : x = e0 := by simpa using hh
          subst hx
          obtain ⟨j, rfl⟩ := findFirstNonSystem_pos x t i hr hf
          rw [head?_eraseIdx_succ, List.head?_cons]

/-- The trim loop never evicts a head entry of role `"system"`. -/
theorem trimLoop_head :
    ∀ (fuel : Nat) (h : MessageHistory) (mt : Int) (e0 : HistoryEntry),
      h.messages.head? = some e0 → e0.message.role = "system" →
      (trimLoop fuel h mt).messages.head? = some e0
  | 0, _, _, _, hh, _ => hh
  | fuel + 1, h, mt, e0, hh, hr => by
    unfold trimLoop
    split
    · cases htr : h.trimIfNeeded mt with
      | mk moved h2 =>
        cases moved with
        | true =>
          exact trimLoop_head fuel h2 mt e0
            (by have := trimIfNeeded_head h mt e0 hh hr; rwa [htr] at this) hr
        | false => exact hh
    · exact hh

/-- Characterization of a successful trim: the scan found a position, the
entry there was removed, and its tokens were subtracted. -/
theorem trimIfNeeded_true_spec (h : MessageHistory) (mt : Int)
    (htr : (h.trimIfNeeded mt).1 = true) :
    ∃ i removed, findFirstNonSystem h.messages = some i ∧
      h.messages[i]? = some removed ∧
      (h.trimIfNeeded mt).2 =
        { messages := h.messages.eraseIdx i,
          currentTokens := h.currentTokens - removed.metadata.tokens } := by
  unfold MessageHistory.trimIfNeeded at htr ⊢
  by_cases hc : h.currentTokens ≤ mt
  · rw [if_pos hc] at htr; simp at htr
  · rw [if_neg hc] at htr ⊢
    generalize hf : findFirstNonSystem h.messages = fr at htr ⊢
    cases fr with
    | none => simp at htr
    | some i =>
      dsimp only at htr ⊢
      generalize hg : h.messages[i]? = gr at htr
      cases gr with
      | none => simp at htr
      | some removed =>
        dsimp only at htr ⊢
        exact ⟨i, removed, rfl, hg, rfl⟩

/-- A successful trim removes exactly one entry. -/
theorem trimIfNeeded_true_length (h : MessageHistory) (mt : Int)
    (htr : (h.trimIfNeeded mt).1 = true) :
    ((h.trimIfNeeded mt).2).messages.length + 1 = h.messages.length := by
  obtain ⟨i, removed, hf, hg, heq⟩ := trimIfNeeded_true_spec h mt htr
  have hlt : i < h.messages.length := findFirstNonSystem_lt h.messages i hf
  rw [heq]
  show (h.messages.eraseIdx i).length + 1 = h.messages.length
  rw [List.length_eraseIdx]
  simp only [hlt, if_true]
  omega

/-- A refused trim with the budget exceeded means only `"system"`-role
entries remain. -/
theorem trimIfNeeded_false_all (h : MessageHistory) (mt : Int)
    (hgt : ¬ h.getTotalTokens ≤ mt) (htr : (h.trimIfNeeded mt).1 = false) :
    allSystemRole h.messages = true := by
  have hc : ¬ h.currentTokens ≤ mt := hgt
  unfold MessageHistory.trimIfNeeded at htr
  rw [if_neg hc] at htr
  generalize hf : findFirstNonSystem h.messages = fr at htr
  cases fr with
  | none => exact findFirstNonSystem_none_all h.messages hf
  | some i =>
    dsimp only at htr
    have hlt : i < h.messages.length := findFirstNonSystem_lt h.messages i hf
    generalize hg : h.messages[i]? = gr at htr
    cases gr with
    | none =>
      rw [List.getElem?_eq_getElem hlt] at hg
      simp at hg
    | some removed => simp at htr

/-- With enough fuel, the trim loop ends under budget or with only
`"system"`-role entries stored. -/
theorem trimLoop_post :
    ∀ (fuel : Nat) (h : MessageHistory) (mt : Int),
      h.messages.length < fuel →
      (trimLoop fuel h mt).getTotalTokens ≤ mt ∨
        allSystemRole (trimLoop fuel h mt).messages = true
  | 0, h, mt, hlt => absurd hlt (by omega)
  | fuel + 1, h, mt, hlt => by
    unfold trimLoop
    split
    · rename_i hgt
      cases htr : h.trimIfNeeded mt with
      | mk moved h2 =>
        cases moved with
        | true =>
          have hlen : h2.messages.length + 1 = h.messages.length := by
            have hl := trimIfNeeded_true_length h mt (by rw [htr])
            rw [htr] at hl
            simpa using hl
          exact trimLoop_post fuel h2 mt (by omega)
        | false =>
          right
          exact trimIfNeeded_false_all h mt (by omega) (by rw [htr])
    · rename_i hle
      left
      omega

/-- One manager-level `addMessage` keeps the system entry at the head. -/
theorem addMessage_head (m : MessageManager) (msg : ChatMessage) (e0 : HistoryEntry)
    (hh : m.history.messages.head? = some e0) (hr : e0.message.role = "system") :
    ((m.addMessage msg).history.messages.head? = some e0) := by
  unfold MessageManager.addMessage
  apply trimLoop_head
  · show ((m.history.addMessage msg _).messages.head? = some e0)
    unfold MessageHistory.addMessage
    dsimp only
    rw [List.head?_append, hh]
    rfl
  · exact hr

/-- After any manager-level `addMessage`, bills are settled: the history is
under budget or only `"system"`-role entries remain. -/
theorem addMessage_post (m : MessageManager) (msg : ChatMessage) :
    (m.addMessage msg).history.getTotalTokens ≤ (m.addMessage msg).maxTokens ∨
      allSystemRole (m.addMessage msg).history.messages = true := by
  unfold MessageManager.addMessage
  exact trimLoop_post _ _ _ (by omega)

/-- The head entry after the constructor is the system instruction. -/
theorem new_head (task : String) (mt : Option Int) :
    ∃ e0, (MessageManager.new task mt).history.messages.head? = some e0 ∧
      e0.message = systemMessage := by
  unfold MessageManager.new MessageManager.addTaskMessage
  refine ⟨{ message := systemMessage, metadata := { tokens := estimateTokens systemContent } },
    ?_, rfl⟩
  apply addMessage_head
  · unfold MessageManager.addSystemMessage MessageManager.addMessage
    apply trimLoop_head
    · rfl
    · rfl
  · rfl

/-- Every add operation ends in a manager-level `addMessage`, so it keeps the
system entry at the head and restores the budget discipline. -/
theorem applyOp_inv (m : MessageManager) (op : MMOp) (e0 : HistoryEntry)
    (hh : m.history.messages.head? = some e0) (hr : e0.message.role = "system") :
    ((m.applyOp op).history.messages.head? = some e0) ∧
      ((m.applyOp op).history.getTotalTokens ≤ (m.applyOp op).maxTokens ∨
        allSystemRole (m.applyOp op).history.messages = true) := by
  cases op with
  | state s =>
    unfold MessageManager.applyOp MessageManager.addStateMessage
    dsimp only
    constructor
    · apply addMessage_head
      · split
        · exact addMessage_head m _ e0 hh hr
        · exact hh
      · exact hr
    · apply addMessage_post
  | result r =>
    unfold MessageManager.applyOp MessageManager.addActionResultMessage
    dsimp only
    cases r.action with
    | none =>
      dsimp only
      exact ⟨addMessage_head m _ e0 hh hr, addMessage_post m _⟩
    | some a =>
      dsimp only
      exact ⟨addMessage_head m _ e0 hh hr, addMessage_post m _⟩
  | nav url =>
    unfold MessageManager.applyOp MessageManager.addNavigationMessage
    exact ⟨addMessage_head m _ e0 hh hr, addMessage_post m _⟩

/-- C1 (amended), main induction: from the constructor through any sequence
of add operations, the system entry stays at the head, and the history is
under budget unless only `"system"`-role entries remain. -/
theorem applyOps_inv (task : String) (mt : Option Int) (ops : List MMOp) :
    ∃ e0, ((MessageManager.new task mt).applyOps ops).history.messages.head? = some e0 ∧
      e0.message = systemMessage ∧
      (((MessageManager.new task mt).applyOps ops).history.getTotalTokens ≤
          ((MessageManager.new task mt).applyOps ops).maxTokens ∨
        allSystemRole ((MessageManager.new task mt).applyOps ops).history.messages = true) := by
  obtain ⟨e0, hh0, hm0⟩ := new_head task mt
  have hr0 : e0.message.role = "system" := by rw [hm0]; rfl
  have post0 : (MessageManager.new task mt).history.getTotalTokens ≤
      (MessageManager.new task mt).maxTokens ∨
      allSystemRole (MessageManager.new task mt).history.messages = true := by
    unfold MessageManager.new MessageManager.addTaskMessage
    apply addMessage_post
  have main : ∀ (l : List MMOp) (m : MessageManager),
      m.history.messages.head? = some e0 →
      (m.history.getTotalTokens ≤ m.maxTokens ∨ allSystemRole m.history.messages = true) →
      (m.applyOps l).history.messages.head? = some e0 ∧
        ((m.applyOps l).history.getTotalTokens ≤ (m.applyOps l).maxTokens ∨
          allSystemRole (m.applyOps l).history.messages = true) := by
    intro l
    induction l with
    | nil => intro m hh hp; exact ⟨hh, hp⟩
    | cons op rest ih =>
      intro m hh _
      obtain ⟨hh2, hp2⟩ := applyOp_inv m op e0 hh hr0
      simpa [MessageManager.applyOps, List.foldl_cons] using ih (m.applyOp op) hh2 hp2
  obtain ⟨hh, hp⟩ := main ops (MessageManager.new task mt) hh0 post0
  exact ⟨e0, hh, hm0, hp⟩

/-- C1, counterexample: with a configured budget of 1 token, already after the
constructor's own two additions (system instruction, then task statement) the
task entry — role `"user"`, hence not protected by the role-based eviction —
has been evicted: only the system instruction remains, and no `"user"`-role
entry is stored, contradicting the claim that the pinned task entry is still
present after each addition. -/
theorem contextBudget_taskEvicted_counterexample :
    ((MessageManager.new "do it" (some 1)).history.getMessages.map
        (fun msg => msg.role) = ["system"]) ∧
    ((MessageManager.new "do it" (some 1)).history.getMessages.any
        (fun msg => msg.role == "user") = false) := by
  exact ⟨rfl, rfl⟩

/-- C1 (amended): for every sequence of add operations on a constructed
conversation manager, the system-instruction entry is still the first stored
entry (eviction only ever removes entries whose role is not `"system"`), and
after each addition the total estimated cost is at most the configured budget
unless every remaining entry has role `"system"` (the task entry has role
`"user"` and is therefore the first evicted, and `"system"`-role entries such
as action results and navigation notices are never evictable). -/
theorem contextBudget_amended (task : String) (mt : Option Int) (ops : List MMOp) :
    (((MessageManager.new task mt).applyOps ops).history.messages.head?.map
        (fun e => e.message) = some systemMessage) ∧
    (((MessageManager.new task mt).applyOps ops).history.getTotalTokens ≤
        ((MessageManager.new task mt).applyOps ops).maxTokens ∨
      allSystemRole ((MessageManager.new task mt).applyOps ops).history.messages = true) := by
  obtain ⟨e0, hh, hm, hp⟩ := applyOps_inv task mt ops
  refine ⟨?_, hp⟩
  rw [hh, Option.map_some', hm]

/-- C10: for every sequence of `addMessage` and `trimIfNeeded` operations on
a fresh `MessageHistory`, the running counter `currentTokens` equals the sum
of the token estimates stored in the metadata of the current messages, and
`getTotalTokens` returns that sum. -/
theorem currentTokens_tracks_sum (ops : List HistOp) :
    ((MessageHistory.empty.applyOps ops).currentTokens =
      sumTokens (MessageHistory.empty.applyOps ops).messages) ∧
    ((MessageHistory.empty.applyOps ops).getTotalTokens =
      sumTokens (MessageHistory.empty.applyOps ops).messages) := by
  have hinv := applyOps_tokens ops MessageHistory.empty rfl
  exact ⟨hinv, hinv⟩

/-! ## Document-model-builder lemmas -/

mutual
/-- Every element indexed inside a node's subtree passed the tag-acceptance,
visibility (the top body exempt), viewport, topmost and interactivity
checks. -/
theorem buildDomTree_checks (cfg : BuildConfig) :
    ∀ (n : DomNode) (idx : Nat) (pr : Nat × ElemData),
      pr ∈ (buildDomTree cfg n idx).2.2 →
      isElementAccepted pr.2 = true ∧
        (pr.2.isBody = true ∨ isElementVisible pr.2 = true) ∧
        isInExpandedViewport cfg pr.2 = true ∧ isTopElement cfg.win pr.2 = true ∧
        isInteractiveElement pr.2 = true
  | .text c v, idx, pr, hmem => by
    simp [buildDomTree] at hmem
  | .elem d children, idx, pr, hmem => by
    simp only [buildDomTree] at hmem
    split at hmem
    · simp at hmem
    · split at hmem
      · simp at hmem
      · split at hmem
        · simp at hmem
        · rename_i h1 h2 h3
          split at hmem
          · rename_i h4
            split at hmem
            · rename_i h5
              split at hmem
              · rename_i h6
                rw [List.mem_append] at hmem
                rcases hmem with hmem | hmem
                · exact buildForest_checks cfg children idx pr hmem
                · rw [List.mem_singleton] at hmem
                  subst hmem
                  refine ⟨by simpa using h2, ?_, h4, h5, h6⟩
                  have h3b := h3
                  simp only [Bool.and_eq_true, Bool.not_eq_true', not_and] at h3b
                  by_cases hb : d.isBody = true
                  · exact Or.inl hb
                  · right
                    have := h3b (by simpa using hb)
                    simpa using this
              · exact buildForest_checks cfg children idx pr hmem
            · exact buildForest_checks cfg children idx pr hmem
          · exact buildForest_checks cfg children idx pr hmem

/-- Forest version of `buildDomTree_checks`. -/
theorem buildForest_checks (cfg : BuildConfig) :
    ∀ (f : DomForest) (idx : Nat) (pr : Nat × ElemData),
      pr ∈ (buildForest cfg f idx).2 →
      isElementAccepted pr.2 = true ∧
        (pr.2.isBody = true ∨ isElementVisible pr.2 = true) ∧
        isInExpandedViewport cfg pr.2 = true ∧ isTopElement cfg.win pr.2 = true ∧
        isInteractiveElement pr.2 = true
  | .nil, idx, pr, hmem => by simp [buildForest] at hmem
  | .cons n f, idx, pr, hmem => by
    simp only [buildForest] at hmem
    rw [List.mem_append] at hmem
    rcases hmem with hmem | hmem
    · exact buildDomTree_checks cfg n idx pr hmem
    · exact buildForest_checks cfg f (buildDomTree cfg n idx).2.1 pr hmem
end

mutual
/-- The highlight counter never decreases, and the indices recorded in a
subtree are exactly the consecutive values the counter passed through, in
order. -/
theorem buildDomTree_range (cfg : BuildConfig) :
    ∀ (n : DomNode) (idx : Nat),
      idx ≤ (buildDomTree cfg n idx).2.1 ∧
      ((buildDomTree cfg n idx).2.2).map Prod.fst =
        List.range' idx ((buildDomTree cfg n idx).2.1 - idx)
  | .text c v, idx => by simp [buildDomTree]
  | .elem d children, idx => by
    obtain ⟨hle, hmap⟩ := buildForest_range cfg children idx
    simp only [buildDomTree]
    split
    · simp
    · split
      · simp
      · split
        · simp
        · split
          · split
            · split
              · dsimp only
                refine ⟨by omega, ?_⟩
                rw [List.map_append, hmap]
                have key := @List.range'_concat 1 idx
                  ((buildForest cfg children idx).1 - idx)
                rw [show idx + 1 * ((buildForest cfg children idx).1 - idx) =
                    (buildForest cfg children idx).1 from by omega] at key
                rw [show (buildForest cfg children idx).1 + 1 - idx =
                    ((buildForest cfg children idx).1 - idx) + 1 from by omega]
                simpa using key.symm
              · exact ⟨hle, hmap⟩
            · exact ⟨hle, hmap⟩
          · exact ⟨hle, hmap⟩

/-- Forest version of `buildDomTree_range`. -/
theorem buildForest_range (cfg : BuildConfig) :
    ∀ (f : DomForest) (idx : Nat),
      idx ≤ (buildForest cfg f idx).1 ∧
      ((buildForest cfg f idx).2).map Prod.fst =
        List.range' idx ((buildForest cfg f idx).1 - idx)
  | .nil, idx => by simp [buildForest]
  | .cons n f, idx => by
    obtain ⟨hle1, hmap1⟩ := buildDomTree_range cfg n idx
    obtain ⟨hle2, hmap2⟩ := buildForest_range cfg f (buildDomTree cfg n idx).2.1
    simp only [buildForest]
    refine ⟨by omega, ?_⟩
    rw [List.map_append, hmap1, hmap2]
    have key := List.range'_append idx ((buildDomTree cfg n idx).2.1 - idx)
      ((buildForest cfg f (buildDomTree cfg n idx).2.1).1 - (buildDomTree cfg n idx).2.1) 1
    rw [show idx + 1 * ((buildDomTree cfg n idx).2.1 - idx) =
        (buildDomTree cfg n idx).2.1 from by omega] at key
    rw [show (buildForest cfg f (buildDomTree cfg n idx).2.1).1 -
          (buildDomTree cfg n idx).2.1 + ((buildDomTree cfg n idx).2.1 - idx) =
        (buildForest cfg f (buildDomTree cfg n idx).2.1).1 - idx from by omega] at key
    exact key
end

/-- C2, counterexample: the fully transparent top body (`opacity "0"`, so it
fails `_isElementVisible`) is nevertheless assigned snapshot index 0, because
`_buildDomTree` exempts `document.body` from the visibility test; this
contradicts the claim that every indexed element passed the visibility
test. -/
theorem snapshotChecks_counterexample :
    build cfg0 (.elem bodyD .nil) = [(0, bodyD)] ∧ isElementVisible bodyD = false := by
  exact ⟨rfl, rfl⟩

/-- C2 (amended): every element assigned a snapshot index by `build()` has a
non-denylisted tag, lies within the viewport expanded by the configured
margin, is the topmost element at its box centre, and matches the
interactivity signature; it also passed the visibility test unless it is the
top document body, which is exempt from that test. -/
theorem snapshotChecks_amended (cfg : BuildConfig) (root : DomNode)
    (pr : Nat × ElemData) (hmem : pr ∈ build cfg root) :
    isElementAccepted pr.2 = true ∧
      (pr.2.isBody = true ∨ isElementVisible pr.2 = true) ∧
      isInExpandedViewport cfg pr.2 = true ∧ isTopElement cfg.win pr.2 = true ∧
      isInteractiveElement pr.2 = true :=
  buildDomTree_checks cfg root 0 pr hmem

/-- Witness for C2 (amended): the indexed transparent body of the
counterexample tree, whose membership in the snapshot is discharged by
evaluation. -/
theorem snapshotChecks_amended_witness :
    isElementAccepted bodyD = true ∧
      (bodyD.isBody = true ∨ isElementVisible bodyD = true) ∧
      isInExpandedViewport cfg0 bodyD = true ∧ isTopElement cfg0.win bodyD = true ∧
      isInteractiveElement bodyD = true :=
  snapshotChecks_amended cfg0 (.elem bodyD .nil) (0, bodyD) (by decide)

/-- C4, counterexample: in a two-element document whose interactive container
holds an interactive button, `build()` assigns index 0 to the inner button
and index 1 to its ancestor — the ancestor receives the *higher* index,
refuting pre-order assignment (children are recursed before the node itself
is classified). -/
theorem indexAssignment_counterexample :
    build cfg0 demoTree = [(0, childD), (1, parentD)] := rfl

/-- C4 (amended): on each `build()` call the counter starts at 0, increments
only on a qualifying element, and the assigned indices are contiguous
starting at 0; assignment order is strict *post-order*: an element either
contributes no entry of its own, or its entry follows all entries of its
subtree and carries a strictly larger index than every qualifying element
inside it. -/
theorem indexAssignment_amended (cfg : BuildConfig) :
    (∀ root : DomNode,
      (build cfg root).map Prod.fst = List.range (build cfg root).length) ∧
    (∀ (d : ElemData) (children : DomForest) (idx : Nat),
      (buildDomTree cfg (.elem d children) idx).2.2 = [] ∨
      (buildDomTree cfg (.elem d children) idx).2.2 = (buildForest cfg children idx).2 ∨
      ((buildDomTree cfg (.elem d children) idx).2.2 =
          (buildForest cfg children idx).2 ++ [((buildForest cfg children idx).1, d)] ∧
        ∀ pr ∈ (buildForest cfg children idx).2, pr.1 < (buildForest cfg children idx).1)) := by
  constructor
  · intro root
    obtain ⟨hle, hmap⟩ := buildDomTree_range cfg root 0
    have hlen : (build cfg root).length = (buildDomTree cfg root 0).2.1 - 0 := by
      have hcg := congrArg List.length hmap
      simpa [build] using hcg
    rw [hlen, List.range_eq_range']
    exact hmap
  · intro d children idx
    obtain ⟨hle, hmap⟩ := buildForest_range cfg children idx
    simp only [buildDomTree]
    split
    · exact Or.inl rfl
    · split
      · exact Or.inl rfl
      · split
        · exact Or.inl rfl
        · split
          · split
            · split
              · refine Or.inr (Or.inr ⟨rfl, ?_⟩)
                intro pr hpr
                have hmem : pr.1 ∈ ((buildForest cfg children idx).2).map Prod.fst :=
                  List.mem_map_of_mem Prod.fst hpr
                rw [hmap] at hmem
                have := List.mem_range'_1.mp hmem
                omega
              · exact Or.inr (Or.inl rfl)
            · exact Or.inr (Or.inl rfl)
          · exact Or.inr (Or.inl rfl)

/-- Witness for C4 (amended): contiguity of the indices of the two-element
demonstration snapshot, by applying the theorem at that tree. -/
theorem indexAssignment_amended_witness :
    (build cfg0 demoTree).map Prod.fst = List.range (build cfg0 demoTree).length :=
  (indexAssignment_amended cfg0).1 demoTree

/-- C5, counterexample: with `viewportExpansion = -1` the snapshot still
depends on the scroll position.  The off-screen button passes the disabled
viewport check, the tag test, the visibility test and the interactivity
signature, yet it receives no index because `elementFromPoint` at its box
centre — a point below the visual viewport — returns null and the hit test
fails; after scrolling it into view (translating every bounding rectangle by
690 pixels upward) the same `build()` call indexes it at 0. -/
theorem viewportExpansion_counterexample :
    isElementAccepted offscreenD = true ∧
    isElementVisible offscreenD = true ∧
    isInteractiveElement offscreenD = true ∧
    isInExpandedViewport cfgNeg1 offscreenD = true ∧
    build cfgNeg1 (.elem offscreenD .nil) = [] ∧
    build cfgNeg1 (shiftNode 0 (-690) (.elem offscreenD .nil)) =
      [(0, shiftData 0 (-690) offscreenD)] :=
  ⟨rfl, rfl, rfl, rfl, rfl, rfl⟩

/-- C5 (amended): when `viewportExpansion` equals `-1` the viewport-membership
check itself is disabled — it reports every element as in viewport — but the
snapshot is still confined to the visual viewport by the topmost-element
check: `elementFromPoint` returns null for a box centre outside the window,
making the hit test false there, and consequently every element `build()`
indexes has its box centre inside the window — so the snapshot still depends
on the scroll position. -/
theorem viewportExpansionDisabled_amended (w : Viewport) :
    (∀ d : ElemData,
      isInExpandedViewport { viewportExpansion := -1, win := w } d = true) ∧
    (∀ d : ElemData,
      (centerX d < 0 ∨ centerY d < 0 ∨ centerX d > w.innerWidth ∨
        centerY d > w.innerHeight) → isTopElement w d = false) ∧
    (∀ (root : DomNode) (pr : Nat × ElemData),
      pr ∈ build { viewportExpansion := -1, win := w } root →
      0 ≤ centerX pr.2 ∧ centerX pr.2 ≤ w.innerWidth ∧
      0 ≤ centerY pr.2 ∧ centerY pr.2 ≤ w.innerHeight) := by
  refine ⟨fun d => rfl, fun d h => ?_, fun root pr hmem => ?_⟩
  · simp only [isTopElement]
    rw [if_pos h]
  · have hchecks :=
      buildDomTree_checks { viewportExpansion := -1, win := w } root 0 pr hmem
    have htop := hchecks.2.2.2.1
    simp only [isTopElement] at htop
    by_cases hcond : centerX pr.2 < 0 ∨ centerY pr.2 < 0 ∨
        centerX pr.2 > w.innerWidth ∨ centerY pr.2 > w.innerHeight
    · rw [if_pos hcond] at htop
      exact absurd htop (by simp)
    · push_neg at hcond
      omega

/-- Witness for C5 (amended): the hit test rejects the off-screen button of
the counterexample (its centre lies below the 600-pixel window), by applying
the theorem at that element. -/
theorem viewportExpansionDisabled_amended_witness :
    isTopElement cfgNeg1.win offscreenD = false :=
  (viewportExpansionDisabled_amended cfgNeg1.win).2.1 offscreenD (by decide)

/-! ## Decision-parsing lemmas -/

/-- A value with a truthy property is an object. -/
theorem truthyField_isObj (v : JsValue) (name : String)
    (h : truthyField v name = true) : isObjValue v = true := by
  cases v <;> simp [truthyField, getField, isObjValue] at h ⊢

/-- The keyword heuristics only return objects with a truthy `type`. -/
theorem heuristicAction_ok (s : String) (v : JsValue)
    (h : heuristicAction s = .ok v) :
    isObjValue v = true ∧ truthyField v "type" = true := by
  unfold heuristicAction at h
  split at h
  · injection h with h2; subst h2; exact ⟨rfl, rfl⟩
  · split at h
    · injection h with h2; subst h2; exact ⟨rfl, rfl⟩
    · split at h
      · injection h with h2; subst h2; exact ⟨rfl, rfl⟩
      · split at h
        · injection h with h2; subst h2; exact ⟨rfl, rfl⟩
        · simp at h

/-- The JSON tier of `parseAction` only succeeds with an object carrying a
truthy `type` (the validation throw filters everything else). -/
theorem parseActionBody_json_ok (p : String → Option JsValue) (aj : String) (v : JsValue)
    (h : (match p aj with
      | none => Except.error "Unexpected token in JSON"
      | some actionJsonV =>
        if !(truthyField actionJsonV "type") then Except.error "Action missing type"
        else Except.ok actionJsonV) = Except.ok v) :
    isObjValue v = true ∧ truthyField v "type" = true := by
  generalize hp : p aj = pj at h
  cases pj with
  | none => simp at h
  | some actionJsonV =>
    dsimp only at h
    split at h
    · simp at h
    · rename_i hty
      injection h with h2
      subst h2
      have hty2 : truthyField actionJsonV "type" = true := by simpa using hty
      exact ⟨truthyField_isObj _ _ hty2, hty2⟩

/-- The body of `parseAction` only succeeds with an object carrying a truthy
`type`. -/
theorem parseActionBody_ok (p : String → Option JsValue) (s : String) (v : JsValue)
    (h : parseActionBody p s = .ok v) :
    isObjValue v = true ∧ truthyField v "type" = true := by
  unfold parseActionBody at h
  generalize hm : jsonMatchTiers s = jm at h
  cases jm with
  | some wc =>
    obtain ⟨whole, cap⟩ := wc
    exact parseActionBody_json_ok p _ v h
  | none =>
    dsimp only at h
    generalize hp : p s = pj at h
    cases pj with
    | some action =>
      dsimp only at h
      split at h
      · rename_i hty
        injection h with h2
        subst h2
        exact ⟨truthyField_isObj _ _ hty, hty⟩
      · exact heuristicAction_ok s v h
    | none => exact heuristicAction_ok s v h

/-- The action model flattened by `parseActionFromLLM` is always an
object. -/
theorem actionModelOf_isObj (parsed : JsValue) :
    isObjValue (actionModelOf parsed) = true := by
  unfold actionModelOf
  generalize getField parsed "action" = ga
  cases ga with
  | none => rfl
  | some val => cases val <;> rfl

/-- The body of `parseActionFromLLM` only succeeds with an object. -/
theorem parseActionFromLLMBody_ok (p : String → Option JsValue) (s : String)
    (v : JsValue) (h : parseActionFromLLMBody p s = .ok v) :
    isObjValue v = true := by
  unfold parseActionFromLLMBody at h
  generalize hp : p (fenceExtract s) = pj at h
  cases pj with
  | none => simp at h
  | some parsed =>
    dsimp only at h
    split at h
    · simp at h
    · split at h
      · simp at h
      · injection h with h2
        subst h2
        exact actionModelOf_isObj parsed

/-- C3, counterexample: on the empty input — which the host `JSON.parse`
necessarily rejects — the `AgentService` decision parser
`parseActionFromLLM` returns a synthetic action of type `"error"`, not the
failing terminal `done` action with `success = false` that the claim asserts
for every complete parse failure. -/
theorem decisionParsing_counterexample :
    parseActionFromLLM jsonParse "" =
      .obj [("type", .str "error"),
            ("message", .str "Failed to parse response: Unexpected token in JSON")] ∧
    getField (parseActionFromLLM jsonParse "") "type" ≠ some (.str "done") := by
  constructor
  · rfl
  · intro hcontra
    have h1 : getField (parseActionFromLLM jsonParse "") "type" =
        some (.str "error") := rfl
    rw [h1] at hcontra
    simp at hcontra

/-- C3 (amended): both decision parsers are total for every parse oracle and
every input — each returns an action object and never propagates a failure —
but their synthetic failure actions differ: `AgentGraph.parseAction` returns
the failing terminal `done` action with `success = false`, while
`AgentService.parseActionFromLLM` returns an action of type `"error"` (which
is not terminal). -/
theorem decisionParsing_amended (p : String → Option JsValue) (s : String) :
    (isObjValue (parseAction p s) = true) ∧
    (∀ e, parseActionBody p s = .error e →
      parseAction p s = .obj [("type", .str "done"), ("success", .bool false),
        ("error", .str ("Failed to determine next action: " ++ e))]) ∧
    (isObjValue (parseActionFromLLM p s) = true) ∧
    (∀ e, parseActionFromLLMBody p s = .error e →
      parseActionFromLLM p s = .obj [("type", .str "error"),
        ("message", .str ("Failed to parse response: " ++ e))]) := by
  refine ⟨?_, ?_, ?_, ?_⟩
  · unfold parseAction
    generalize hb : parseActionBody p s = b
    cases b with
    | ok v => exact (parseActionBody_ok p s v hb).1
    | error e => rfl
  · intro e he
    unfold parseAction
    rw [he]
  · unfold parseActionFromLLM
    generalize hb : parseActionFromLLMBody p s = b
    cases b with
    | ok v => exact parseActionFromLLMBody_ok p s v hb
    | error e => rfl
  · intro e he
    unfold parseActionFromLLM
    rw [he]

/-- Witness for C3 (amended): the graph parser on plain prose yields the
synthetic failed `done` action, by applying the theorem at that input. -/
theorem decisionParsing_amended_witness :
    parseAction jsonParse "hello" =
      .obj [("type", .str "done"), ("success", .bool false),
        ("error", .str "Failed to determine next action: Could not parse action from LLM response")] :=
  (decisionParsing_amended jsonParse "hello").2.1
    "Could not parse action from LLM response" (by rfl)

/-! ## Action-executor theorems -/

/-- C6: evaluating the executor at the claim's own example input — an
input-text action with a resolvable locator but no text payload — shows a
malformed action partially executed before failing: the result is a failure,
yet the element has been focused and its existing value cleared, so the
document state changed; by contrast a click with neither locator nor index is
rejected with the document untouched.  The spec's invariant (malformed
actions rejected before execution, never partially executed) is the evident
intent, and the missing text-payload validation a slip. -/
theorem malformedAction_partialExecution :
    ((executeAction ctrl0 page0 actMissingText).1.success = false) ∧
    ((executeAction ctrl0 page0 actMissingText).2.focused = some "html/body/input") ∧
    (((executeAction ctrl0 page0 actMissingText).2.findElementByXPath
        "html/body/input").map PageElem.value = some "") ∧
    ((page0.findElementByXPath "html/body/input").map PageElem.value = some "hello") ∧
    ((executeAction ctrl0 page0 actMissingText).2 ≠ page0) ∧
    ((executeAction ctrl0 page0 actNoTarget).1.success = false) ∧
    ((executeAction ctrl0 page0 actNoTarget).2 = page0) := by
  refine ⟨rfl, rfl, rfl, rfl, ?_, rfl, rfl⟩
  intro hcontra
  have h1 : (executeAction ctrl0 page0 actMissingText).2.focused =
      some "html/body/input" := rfl
  rw [hcontra] at h1
  have h2 : page0.focused = none := rfl
  rw [h2] at h1
  exact Option.noConfusion h1

/-- C7: for every click action on a resolvable element — whether addressed by
locator or, through the legacy selector map, by index — exactly the three
activation tiers are attempted in fixed order — direct activation, then the
synthetic click event, then the synthetic press/release pair — a later tier
attempted exactly when every earlier tier raised and nothing retried beyond
the third; and the executor-level result reports success precisely when some
tier completed without raising. -/
theorem clickTiers (ctrl : ActionController) (p : Page) (xpath : String)
    (el : PageElem) (hx : xpath ≠ "")
    (hfind : p.findElementByXPath xpath = some el) :
    ((clickElementByXPath p xpath).2.2 =
      if !el.clickThrows then ["click"]
      else if !el.dispatchClickThrows then ["click", "dispatchClick"]
      else ["click", "dispatchClick", "mouseEvents"]) ∧
    ((executeAction ctrl p { type := "click_element", xpath := some xpath }).1.success =
      (!el.clickThrows || !el.dispatchClickThrows || !el.dispatchMouseThrows)) ∧
    (∀ i : Int,
      (ctrl.selectorMap.find? (fun e => e.1 == i)).map (fun e => e.2) = some xpath →
      ((clickElement ctrl p i).2.2 =
        if !el.clickThrows then ["click"]
        else if !el.dispatchClickThrows then ["click", "dispatchClick"]
        else ["click", "dispatchClick", "mouseEvents"]) ∧
      ((executeAction ctrl p { type := "click_element", index := some i }).1.success =
        (!el.clickThrows || !el.dispatchClickThrows || !el.dispatchMouseThrows))) := by
  have hxb : (xpath != "") = true := by simpa using hx
  cases hc : el.clickThrows <;> cases hd : el.dispatchClickThrows <;>
    cases hm : el.dispatchMouseThrows <;>
    refine ⟨?_, ?_, fun i hsel => ⟨?_, ?_⟩⟩ <;>
    simp [executeAction, executeActionBody, clickElementByXPath, clickElement,
      clickResolvedElement, hxb, hfind, hc, hd, hm, *]

/-- Witness for C7: against a page whose anchor raises on the direct
activation but accepts the synthetic click event, both the locator-addressed
and the index-addressed click attempt exactly the first two tiers and report
success, by applying the theorem at that page and controller. -/
theorem clickTiers_witness :
    ((clickElementByXPath page1 "html/body/a").2.2 = ["click", "dispatchClick"]) ∧
    ((executeAction ctrl1 page1
        { type := "click_element", xpath := some "html/body/a" }).1.success = true) ∧
    ((clickElement ctrl1 page1 5).2.2 = ["click", "dispatchClick"]) ∧
    ((executeAction ctrl1 page1
        { type := "click_element", index := some 5 }).1.success = true) := by
  have h := clickTiers ctrl1 page1 "html/body/a" { tagName := "A", clickThrows := true }
    (by decide) (by rfl)
  have h3 := h.2.2 5 (by rfl)
  exact ⟨by rw [h.1]; rfl, by rw [h.2.1]; rfl, by rw [h3.1]; rfl, by rw [h3.2]; rfl⟩

/-- C9, counterexample: a wait action with caller-specified seconds = 0 —
falsy in JavaScript — takes the one-second default path: the executor pauses
1000 milliseconds, while the claim's clamp(0 × 1000, 100, 30000) is 100
milliseconds. -/
theorem waitClamp_counterexample :
    ((executeAction ctrl0 page0 { type := "wait", seconds := some 0 }).2.waitedMs =
      [1000]) ∧
    (max 100 (min 30000 ((0 : Int) * 1000)) = 100) ∧
    ((1000 : Int) ≠ 100) := by
  exact ⟨rfl, by decide, by decide⟩

/-- C9 (amended): for every wait action the executor pauses for
clamp(s × 1000, 100, 30000) milliseconds where s is the caller-specified
duration — except that an absent or zero `seconds` (falsy) is replaced by the
one-second default before clamping, giving 1000 ms; the pause always lies
between 100 and 30000 ms and the returned result reports success. -/
theorem waitClamp_amended (ctrl : ActionController) (p : Page) (s : Option Int) :
    ((executeAction ctrl p { type := "wait", seconds := s }).1.success = true) ∧
    ((executeAction ctrl p { type := "wait", seconds := s }).2.waitedMs =
      p.waitedMs ++ [waitMs (effectiveWaitSeconds s)]) ∧
    (∀ k, s = some k → k ≠ 0 →
      waitMs (effectiveWaitSeconds s) = max 100 (min 30000 (k * 1000))) ∧
    (100 ≤ waitMs (effectiveWaitSeconds s) ∧ waitMs (effectiveWaitSeconds s) ≤ 30000) := by
  refine ⟨rfl, rfl, ?_, ?_⟩
  · intro k hk hkne
    subst hk
    simp [effectiveWaitSeconds, hkne, waitMs]
  · unfold waitMs
    omega

/-- Witness for C9 (amended): a 45-second wait pauses for exactly the
30-second cap, by applying the theorem at that input. -/
theorem waitClamp_amended_witness :
    waitMs (effectiveWaitSeconds (some 45)) = max 100 (min 30000 ((45 : Int) * 1000)) :=
  (waitClamp_amended ctrl0 page0 (some 45)).2.2.1 45 rfl (by decide)

/-! ## In-page action queue theorems -/

/-- C8: for every sequence of incoming events — action arrivals, execution
completions with either outcome, and settle timers — the observable trace is
accepted by the single-flight automaton: an action starts only when none is
in flight, its result is sent before anything else starts, and a fresh DOM
collection precedes every subsequent start; moreover an action arriving while
one is in flight is appended to the pending queue. -/
theorem singleFlight {α : Type} [DecidableEq α] (evs : List (CEv α)) :
    (traceRun (crun evs).trace = some (phaseA (crun evs).phase)) ∧
    (∀ a : α, (crun evs).phase ≠ .idle →
      (crun (evs ++ [.arrive a])).pendingActionQueue =
        (crun evs).pendingActionQueue ++ [a]) := by
  have step : ∀ (st : CState α) (e : CEv α),
      traceRun st.trace = some (phaseA st.phase) →
      traceRun (cstep st e).trace = some (phaseA (cstep st e).phase) := by
    intro st e hinv
    cases e with
    | arrive a =>
      cases hp : st.phase with
      | idle =>
        simp only [traceRun] at hinv
        rw [hp] at hinv
        simp only [phaseA] at hinv
        simp [cstep, hp, traceRun, List.foldl_append, hinv, traceStep, phaseA]
      | running b =>
        rw [hp] at hinv
        simpa [cstep, hp] using hinv
      | settling =>
        rw [hp] at hinv
        simpa [cstep, hp] using hinv
    | execDone ok =>
      cases hp : st.phase with
      | idle =>
        rw [hp] at hinv
        simpa [cstep, hp] using hinv
      | running b =>
        simp only [traceRun] at hinv
        rw [hp] at hinv
        simp only [phaseA] at hinv
        simp [cstep, hp, traceRun, List.foldl_append, hinv, traceStep, phaseA]
      | settling =>
        rw [hp] at hinv
        simpa [cstep, hp] using hinv
    | timer =>
      cases hp : st.phase with
      | idle =>
        rw [hp] at hinv
        simpa [cstep, hp] using hinv
      | running b =>
        rw [hp] at hinv
        simpa [cstep, hp] using hinv
      | settling =>
        simp only [traceRun] at hinv
        rw [hp] at hinv
        simp only [phaseA] at hinv
        cases hq : st.pendingActionQueue with
        | nil =>
          simp [cstep, hp, hq, traceRun, List.foldl_append, hinv, traceStep, phaseA]
        | cons next rest =>
          simp [cstep, hp, hq, traceRun, List.foldl_append, hinv, traceStep, phaseA]
  have main : ∀ (l : List (CEv α)) (st : CState α),
      traceRun st.trace = some (phaseA st.phase) →
      traceRun (l.foldl cstep st).trace = some (phaseA (l.foldl cstep st).phase) := by
    intro l
    induction l with
    | nil => intro st h; exact h
    | cons e rest ih =>
      intro st h
      simpa [List.foldl_cons] using ih (cstep st e) (step st e h)
  constructor
  · exact main evs (cinit α) rfl
  · intro a hph
    have hsplit : crun (evs ++ [CEv.arrive a]) = cstep (crun evs) (.arrive a) := by
      simp [crun, List.foldl_append]
    rw [hsplit]
    cases hp : (crun evs).phase with
    | idle => exact absurd hp hph
    | running b => simp [cstep, hp]
    | settling => simp [cstep, hp]

/-- Witness for C8: with one action already in flight, a second arrival is
queued, by applying the theorem after the first arrival. -/
theorem singleFlight_witness :
    (traceRun (crun ([CEv.arrive "a"] : List (CEv String))).trace =
      some (phaseA (crun ([CEv.arrive "a"] : List (CEv String))).phase)) ∧
    ((crun (([CEv.arrive "a"] : List (CEv String)) ++ [CEv.arrive "b"])).pendingActionQueue =
      (crun ([CEv.arrive "a"] : List (CEv String))).pendingActionQueue ++ ["b"]) := by
  have h := singleFlight ([CEv.arrive "a"] : List (CEv String))
  exact ⟨h.1, h.2 "b" (by decide)⟩

end ChromeUse
